import Mathlib

/-!
Verification of the spatial-SIR simulation (sir_model.py, pathing.py).

The Python sources are shallowly embedded: numpy uint8 arrays become
functions from grid cells to naturals (with explicit bounds), the
networkx grid graph becomes an adjacency function, the A-star search
of networkx (called by SIRNode.pathfind) becomes a fuel-based loop over
an explicit priority queue, and all random draws are taken from explicit
streams so that every claim about "every random stream" quantifies over
the stream arguments.
-/

set_option autoImplicit false

namespace SpatialSIR

/-- A grid cell, written (x, y) exactly as in the Python code, where x
indexes the first array axis and y the second. -/
abbrev Node := ℕ × ℕ

/-- An RGB pixel of the map image; matplotlib yields float values, and the
Terrain palette uses only the exact values 0.0 and 1.0, so we model a
channel as a natural number. -/
structure RGB where
  r : ℕ
  g : ℕ
  b : ℕ
deriving DecidableEq

/-- Terrain.OPEN from pathing.py: the palette colour of open floor. -/
def Terrain.OPEN : RGB := ⟨1, 1, 1⟩

/-- Terrain.WALL from pathing.py. -/
def Terrain.WALL : RGB := ⟨0, 0, 0⟩

/-- Terrain.START from pathing.py. -/
def Terrain.START : RGB := ⟨0, 0, 1⟩

/-- Terrain.TARGET from pathing.py. -/
def Terrain.TARGET : RGB := ⟨0, 1, 0⟩

/-- Terrain.QUARANTINE from pathing.py. -/
def Terrain.QUARANTINE : RGB := ⟨1, 0, 0⟩

/-- Lookup in an association list, mirroring a Python dict read: the most
recently inserted binding (we insert at the front) wins. -/
def assocFind {α : Type} (k : Node) : List (Node × α) → Option α
  | [] => none
  | (k', v) :: rest => if k' = k then some v else assocFind k rest

theorem assocFind_mem {α : Type} {k : Node} {v : α} :
    ∀ {l : List (Node × α)}, assocFind k l = some v → (k, v) ∈ l := by
  intro l
  induction l with
  | nil => intro h; simp [assocFind] at h
  | cons hd tl ih =>
    intro h
    by_cases hk : hd.1 = k
    · subst hk
      simp only [assocFind, if_pos rfl] at h
      · cases h; exact List.mem_cons_self _ _
    · rw [show hd = (hd.1, hd.2) from rfl] at h ⊢
      simp only [assocFind, if_neg hk] at h
      exact List.mem_cons_of_mem _ (ih h)

/-! ## The networkx A-star search

SIRNode.pathfind calls nx.astar_path(graph, start, target, heuristic=dist,
weight=cost).  We embed the networkx implementation: a heap of entries
(priority, counter, node, dist, parent), an enqueued map from node to its
best pushed cost, and an explored map from node to the parent recorded
when it was expanded.  The float priority ncost + heuristic(neighbor) is
a deterministic function of (ncost, neighbor); it is abstracted as a
rational-valued parameter pri, which covers the concrete float values
(every finite float is rational). -/

/-- One entry of the networkx A-star heap. -/
structure Entry where
  priority : ℚ
  counter : ℕ
  node : Node
  dist : ℕ
  parent : Option Node
deriving DecidableEq

/-- Heap order on entries: lexicographic on (priority, counter), exactly
the tuple comparison heapq performs (counters are unique so later tuple
components are never compared). -/
def entryLE (a b : Entry) : Bool :=
  if a.priority < b.priority then true
  else if a.priority = b.priority then a.counter ≤ b.counter
  else false

/-- Pop the heap minimum: returns the least entry under entryLE and the
remaining entries. -/
def popMin : List Entry → Option (Entry × List Entry)
  | [] => none
  | e :: es =>
    match popMin es with
    | none => some (e, [])
    | some (m, rest) => if entryLE e m then some (e, es) else some (m, e :: rest)

theorem popMin_mem : ∀ {l : List Entry} {e : Entry} {rest : List Entry},
    popMin l = some (e, rest) → e ∈ l := by
  intro l
  induction l with
  | nil => intro e rest h; simp [popMin] at h
  | cons hd tl ih =>
    intro e rest h
    simp only [popMin] at h
    cases htl : popMin tl with
    | none => rw [htl] at h; cases h; exact List.mem_cons_self _ _
    | some p =>
      obtain ⟨m, mrest⟩ := p
      rw [htl] at h
      dsimp only at h
      by_cases hle : entryLE hd m
      · rw [if_pos hle] at h; cases h; exact List.mem_cons_self _ _
      · rw [if_neg hle] at h
        cases h
        exact List.mem_cons_of_mem _ (ih (by rw [htl]))

theorem popMin_rest_mem : ∀ {l : List Entry} {e : Entry} {rest : List Entry},
    popMin l = some (e, rest) → ∀ x ∈ rest, x ∈ l := by
  intro l
  induction l with
  | nil => intro e rest h; simp [popMin] at h
  | cons hd tl ih =>
    intro e rest h x hx
    simp only [popMin] at h
    cases htl : popMin tl with
    | none => rw [htl] at h; cases h; simp at hx
    | some p =>
      obtain ⟨m, mrest⟩ := p
      rw [htl] at h
      dsimp only at h
      by_cases hle : entryLE hd m
      · rw [if_pos hle] at h; cases h; exact List.mem_cons_of_mem _ hx
      · rw [if_neg hle] at h
        cases h
        rcases List.mem_cons.mp hx with h1 | h2
        · exact h1 ▸ List.mem_cons_self _ _
        · exact List.mem_cons_of_mem _ (ih (by rw [htl]) x h2)

/-- Push the neighbours of the node being expanded, in adjacency order:
for each neighbour, ncost = dist + weight; skip it when an entry with a
less-or-equal cost was already pushed, otherwise push a fresh heap entry
with the next counter and record its cost in enqueued. -/
def pushNeighbors (pri : ℕ → Node → ℚ) (cur : Node) (dist : ℕ) :
    List (Node × ℕ) → List Entry → List (Node × ℕ) → ℕ →
    List Entry × List (Node × ℕ) × ℕ
  | [], queue, enq, c => (queue, enq, c)
  | (nb, w) :: adj, queue, enq, c =>
    let ncost := dist + w
    match assocFind nb enq with
    | some qcost =>
      if qcost ≤ ncost then
        pushNeighbors pri cur dist adj queue enq c
      else
        pushNeighbors pri cur dist adj
          (queue ++ [⟨pri ncost nb, c, nb, ncost, some cur⟩])
          ((nb, ncost) :: enq) (c + 1)
    | none =>
        pushNeighbors pri cur dist adj
          (queue ++ [⟨pri ncost nb, c, nb, ncost, some cur⟩])
          ((nb, ncost) :: enq) (c + 1)

theorem pushNeighbors_queue_mem (pri : ℕ → Node → ℚ) (cur : Node) (dist : ℕ) :
    ∀ (adj : List (Node × ℕ)) (queue : List Entry) (enq : List (Node × ℕ)) (c : ℕ)
      (e : Entry), e ∈ (pushNeighbors pri cur dist adj queue enq c).1 →
      e ∈ queue ∨ e.parent = some cur := by
  intro adj
  induction adj with
  | nil => intro queue enq c e h; exact Or.inl h
  | cons hd tl ih =>
    intro queue enq c e h
    rw [show hd = (hd.1, hd.2) from rfl] at h
    simp only [pushNeighbors] at h
    cases hfind : assocFind hd.1 enq with
    | some qcost =>
      rw [hfind] at h
      dsimp only at h
      by_cases hle : qcost ≤ dist + hd.2
      · rw [if_pos hle] at h; exact ih queue enq c e h
      · rw [if_neg hle] at h
        rcases ih _ _ _ e h with hin | hp
        · rcases List.mem_append.mp hin with h1 | h2
          · exact Or.inl h1
          · simp at h2; subst h2; exact Or.inr rfl
        · exact Or.inr hp
    | none =>
      rw [hfind] at h
      dsimp only at h
      rcases ih _ _ _ e h with hin | hp
      · rcases List.mem_append.mp hin with h1 | h2
        · exact Or.inl h1
        · simp at h2; subst h2; exact Or.inr rfl
      · exact Or.inr hp

/-- Path reconstruction: follow parents through the explored map until a
record with parent None is met (the source), with fuel against cyclic
parent chains (whose Python counterpart would not terminate). -/
def parentChain (explored : List (Node × Option Node)) :
    ℕ → Option Node → Option (List Node)
  | _, none => some []
  | 0, some _ => none
  | fuel + 1, some n =>
    match assocFind n explored with
    | none => none
    | some p => Option.map (fun l => n :: l) (parentChain explored fuel p)

/-- Either the search terminates this iteration with a result, or it
continues with an updated state. -/
inductive StepRes where
  | done : Option (List Node) → StepRes
  | next : List Entry → List (Node × ℕ) → List (Node × Option Node) → ℕ → StepRes

/-- One iteration of the networkx A-star while-loop: pop the heap minimum;
if it is the target, reconstruct the path; if the node was already
explored skip it (re-expanding only when an equal-cost entry remains
competitive); otherwise record its parent in explored and push its
neighbours. -/
def astarStep (G : Node → List (Node × ℕ)) (pri : ℕ → Node → ℚ) (target : Node)
    (queue : List Entry) (enq : List (Node × ℕ))
    (explored : List (Node × Option Node)) (c : ℕ) : StepRes :=
  match popMin queue with
  | none => .done none
  | some (e, rest) =>
    if e.node = target then
      match parentChain explored (explored.length + 1) e.parent with
      | none => .done none
      | some l => .done (some ((e.node :: l).reverse))
    else
      match assocFind e.node explored with
      | some none => .next rest enq explored c
      | some (some _) =>
        match assocFind e.node enq with
        | none => .done none
        | some qcost =>
          if qcost < e.dist then .next rest enq explored c
          else
            let r := pushNeighbors pri e.node e.dist (G e.node) rest enq c
            .next r.1 r.2.1 ((e.node, e.parent) :: explored) r.2.2
      | none =>
          let r := pushNeighbors pri e.node e.dist (G e.node) rest enq c
          .next r.1 r.2.1 ((e.node, e.parent) :: explored) r.2.2

/-- The A-star main loop with fuel; Python has no fuel, so exhausting it
is modelled as failure. -/
def astarLoop (G : Node → List (Node × ℕ)) (pri : ℕ → Node → ℚ) (target : Node) :
    ℕ → List Entry → List (Node × ℕ) → List (Node × Option Node) → ℕ →
    Option (List Node)
  | 0, _, _, _, _ => none
  | fuel + 1, queue, enq, explored, c =>
    match astarStep G pri target queue enq explored c with
    | .done r => r
    | .next q2 e2 x2 c2 => astarLoop G pri target fuel q2 e2 x2 c2

/-- nx.astar_path: initial heap holds (0, 0, source, 0, None) and the
push counter continues from 1. -/
def astarPath (G : Node → List (Node × ℕ)) (pri : ℕ → Node → ℚ)
    (source target : Node) (fuel : ℕ) : Option (List Node) :=
  astarLoop G pri target fuel [⟨0, 0, source, 0, none⟩] [] [] 1

/-- Invariant: the only heap entry without a parent is the initial entry
for the source. -/
def QueueInv (source : Node) (queue : List Entry) : Prop :=
  ∀ e ∈ queue, e.parent = none → e.node = source

/-- Invariant: the only explored record without a parent belongs to the
source. -/
def ExploredInv (source : Node) (explored : List (Node × Option Node)) : Prop :=
  ∀ q ∈ explored, q.2 = none → q.1 = source

theorem parentChain_last (explored : List (Node × Option Node)) :
    ∀ (fuel : ℕ) (po : Option Node) (l : List Node),
      parentChain explored fuel po = some l →
      (po = none ∧ l = []) ∨
      ∃ m, l.getLast? = some m ∧ assocFind m explored = some none := by
  intro fuel
  induction fuel with
  | zero =>
    intro po l h
    cases po with
    | none => simp [parentChain] at h; exact Or.inl ⟨rfl, h⟩
    | some n => simp [parentChain] at h
  | succ fuel ih =>
    intro po l h
    cases po with
    | none => simp [parentChain] at h; exact Or.inl ⟨rfl, h⟩
    | some n =>
      simp only [parentChain] at h
      cases hfind : assocFind n explored with
      | none => rw [hfind] at h; simp at h
      | some p =>
        rw [hfind] at h
        dsimp only at h
        cases hrec : parentChain explored fuel p with
        | none => rw [hrec] at h; simp at h
        | some l' =>
          rw [hrec] at h
          simp only [Option.map_some'] at h
          cases h
          rcases ih p l' hrec with ⟨hp, hl⟩ | ⟨m, hm, hfm⟩
          · subst hl
            refine Or.inr ⟨n, rfl, ?_⟩
            rw [hfind, hp]
          · refine Or.inr ⟨m, ?_, hfm⟩
            cases l' with
            | nil => simp at hm
            | cons b bs => rw [List.getLast?_cons_cons]; exact hm

theorem astarStep_done {G : Node → List (Node × ℕ)} {pri : ℕ → Node → ℚ}
    {source target : Node} {queue : List Entry} {enq : List (Node × ℕ)}
    {explored : List (Node × Option Node)} {c : ℕ} {path : List Node}
    (inv1 : QueueInv source queue) (inv2 : ExploredInv source explored)
    (h : astarStep G pri target queue enq explored c = .done (some path)) :
    path.head? = some source ∧ path.getLast? = some target := by
  unfold astarStep at h
  cases hpop : popMin queue with
  | none => rw [hpop] at h; simp at h
  | some p =>
    obtain ⟨e, rest⟩ := p
    rw [hpop] at h
    dsimp only at h
    by_cases ht : e.node = target
    · rw [if_pos ht] at h
      cases hrec : parentChain explored (explored.length + 1) e.parent with
      | none => rw [hrec] at h; simp at h
      | some l =>
        rw [hrec] at h
        simp only [StepRes.done.injEq, Option.some.injEq] at h
        subst h
        rcases parentChain_last explored _ _ _ hrec with ⟨hp, hl⟩ | ⟨m, hm, hfm⟩
        · subst hl
          have hsrc : e.node = source := inv1 e (popMin_mem hpop) hp
          constructor
          · simp [hsrc]
          · simp [ht]
        · have hmem : (m, (none : Option Node)) ∈ explored := assocFind_mem hfm
          have hsrc : m = source := inv2 _ hmem rfl
          constructor
          · rw [List.head?_reverse]
            cases l with
            | nil => simp at hm
            | cons b bs =>
              rw [List.getLast?_cons_cons, hm, hsrc]
          · rw [List.getLast?_reverse]
            simp [ht]
    · rw [if_neg ht] at h
      cases hx : assocFind e.node explored with
      | some po =>
        rw [hx] at h
        cases po with
        | none => simp at h
        | some q =>
          dsimp only at h
          cases hq : assocFind e.node enq with
          | none => rw [hq] at h; simp at h
          | some qcost =>
            rw [hq] at h
            dsimp only at h
            by_cases hlt : qcost < e.dist
            · rw [if_pos hlt] at h; simp at h
            · rw [if_neg hlt] at h; simp at h
      | none => rw [hx] at h; simp at h

theorem astarStep_next {G : Node → List (Node × ℕ)} {pri : ℕ → Node → ℚ}
    {source target : Node} {queue : List Entry} {enq : List (Node × ℕ)}
    {explored : List (Node × Option Node)} {c : ℕ}
    {q2 : List Entry} {e2 : List (Node × ℕ)} {x2 : List (Node × Option Node)} {c2 : ℕ}
    (inv1 : QueueInv source queue) (inv2 : ExploredInv source explored)
    (h : astarStep G pri target queue enq explored c = .next q2 e2 x2 c2) :
    QueueInv source q2 ∧ ExploredInv source x2 := by
  unfold astarStep at h
  cases hpop : popMin queue with
  | none => rw [hpop] at h; simp at h
  | some p =>
    obtain ⟨e, rest⟩ := p
    rw [hpop] at h
    dsimp only at h
    have hrestInv : QueueInv source rest :=
      fun x hx hp => inv1 x (popMin_rest_mem hpop x hx) hp
    have hexp : ∀ r, r = pushNeighbors pri e.node e.dist (G e.node) rest enq c →
        StepRes.next r.1 r.2.1 ((e.node, e.parent) :: explored) r.2.2 =
          StepRes.next q2 e2 x2 c2 →
        QueueInv source q2 ∧ ExploredInv source x2 := by
      intro r hr hnext
      simp only [StepRes.next.injEq] at hnext
      obtain ⟨h1, h2, h3, h4⟩ := hnext
      constructor
      · intro x hx hp
        rw [← h1] at hx
        rcases pushNeighbors_queue_mem pri e.node e.dist (G e.node) rest enq c x
            (hr ▸ hx) with hin | hpar
        · exact hrestInv x hin hp
        · rw [hp] at hpar; cases hpar
      · intro q hq hqp
        rw [← h3] at hq
        rcases List.mem_cons.mp hq with h5 | h6
        · subst h5
          exact inv1 e (popMin_mem hpop) hqp
        · exact inv2 q h6 hqp
    by_cases ht : e.node = target
    · rw [if_pos ht] at h
      cases hrec : parentChain explored (explored.length + 1) e.parent with
      | none => rw [hrec] at h; simp at h
      | some l => rw [hrec] at h; simp at h
    · rw [if_neg ht] at h
      cases hx : assocFind e.node explored with
      | some po =>
        rw [hx] at h
        cases po with
        | none =>
          dsimp only at h
          simp only [StepRes.next.injEq] at h
          obtain ⟨h1, h2, h3, h4⟩ := h
          exact ⟨h1 ▸ hrestInv, h3 ▸ inv2⟩
        | some q =>
          dsimp only at h
          cases hq : assocFind e.node enq with
          | none => rw [hq] at h; simp at h
          | some qcost =>
            rw [hq] at h
            dsimp only at h
            by_cases hlt : qcost < e.dist
            · rw [if_pos hlt] at h
              simp only [StepRes.next.injEq] at h
              obtain ⟨h1, h2, h3, h4⟩ := h
              exact ⟨h1 ▸ hrestInv, h3 ▸ inv2⟩
            · rw [if_neg hlt] at h
              exact hexp _ rfl h
      | none =>
        rw [hx] at h
        exact hexp _ rfl h

theorem astarLoop_sound {G : Node → List (Node × ℕ)} {pri : ℕ → Node → ℚ}
    {source target : Node} :
    ∀ (fuel : ℕ) (queue : List Entry) (enq : List (Node × ℕ))
      (explored : List (Node × Option Node)) (c : ℕ) (path : List Node),
      QueueInv source queue → ExploredInv source explored →
      astarLoop G pri target fuel queue enq explored c = some path →
      path.head? = some source ∧ path.getLast? = some target := by
  intro fuel
  induction fuel with
  | zero => intro queue enq explored c path _ _ h; simp [astarLoop] at h
  | succ fuel ih =>
    intro queue enq explored c path inv1 inv2 h
    simp only [astarLoop] at h
    cases hstep : astarStep G pri target queue enq explored c with
    | done r =>
      rw [hstep] at h
      dsimp only at h
      subst h
      exact astarStep_done inv1 inv2 hstep
    | next q2 e2 x2 c2 =>
      rw [hstep] at h
      dsimp only at h
      obtain ⟨j1, j2⟩ := astarStep_next inv1 inv2 hstep
      exact ih q2 e2 x2 c2 path j1 j2 h

/-! ## The map (SIRMap of sir_model.py, create_graph of pathing.py) -/

/-- Neighbour list of a cell of nx.grid_2d_graph(m, n), in the adjacency
order networkx builds it (vertical edges first): up, down, left, right. -/
def gridNeighbors (m n : ℕ) (p : Node) : List Node :=
  (if 1 ≤ p.1 then [(p.1 - 1, p.2)] else []) ++
  (if p.1 + 1 < m then [(p.1 + 1, p.2)] else []) ++
  (if 1 ≤ p.2 then [(p.1, p.2 - 1)] else []) ++
  (if p.2 + 1 < n then [(p.1, p.2 + 1)] else [])

/-- create_graph from pathing.py: the weighted grid graph, where an edge
touching a wall cell costs walls.size = m * n and every other edge costs
1.  A query outside the grid (a node networkx does not have, which would
raise) yields an empty adjacency, which makes the search fail. -/
def createGraph (m n : ℕ) (walls : Node → Bool) : Node → List (Node × ℕ) :=
  fun p =>
    if p.1 < m ∧ p.2 < n then
      (gridNeighbors m n p).map fun q => (q, if walls p || walls q then m * n else 1)
    else []

/-- The SIRMap: the static image with its dimensions plus the mutable
miasma field (np.uint8 contamination levels, held as naturals below 256). -/
structure SIRMap where
  height : ℕ
  width : ℕ
  img : Node → RGB
  miasma : Node → ℕ

/-- SIRMap._is_pixel_type: the boolean mask of cells whose pixel equals a
palette colour. -/
def SIRMap.isPixelType (m : SIRMap) (rgb : RGB) : Node → Bool :=
  fun p => m.img p = rgb

/-- The open mask computed by load_map. -/
def SIRMap.openMask (m : SIRMap) : Node → Bool := m.isPixelType Terrain.OPEN

/-- The walls mask computed by load_map. -/
def SIRMap.walls (m : SIRMap) : Node → Bool := m.isPixelType Terrain.WALL

/-- The start mask computed by load_map. -/
def SIRMap.start (m : SIRMap) : Node → Bool := m.isPixelType Terrain.START

/-- The target mask computed by load_map. -/
def SIRMap.target (m : SIRMap) : Node → Bool := m.isPixelType Terrain.TARGET

/-- The quarantine mask computed by load_map. -/
def SIRMap.quarantine (m : SIRMap) : Node → Bool := m.isPixelType Terrain.QUARANTINE

/-- The valid mask: NOT (quarantine OR walls), as computed by load_map. -/
def SIRMap.valid (m : SIRMap) : Node → Bool :=
  fun p => !(m.quarantine p || m.walls p)

/-- The navigation graph built once by load_map. -/
def SIRMap.graph (m : SIRMap) : Node → List (Node × ℕ) :=
  createGraph m.height m.width m.walls

/-- SIRMap.__init__: load the image and zero the miasma field.  load_map
performs no validation whatsoever, so construction is total. -/
def loadSIRMap (height width : ℕ) (img : Node → RGB) : SIRMap :=
  { height := height, width := width, img := img, miasma := fun _ => 0 }

/-- SIRMap.can_enter: false when either coordinate reaches the shape or
is negative, else the valid mask bit masked with the role byte. -/
def SIRMap.can_enter (m : SIRMap) (x y : ℤ) (role : ℕ) : Bool :=
  if (m.height : ℤ) ≤ x ∨ (m.width : ℤ) ≤ y then false
  else if x < 0 ∨ y < 0 then false
  else decide (((if m.valid (x.toNat, y.toNat) then 1 else 0) &&& role % 256) ≠ 0)

/-- Resolution of one numpy index: in-range indices read directly, small
negative indices wrap from the end, anything else raises IndexError. -/
def npIndex (n : ℕ) (i : ℤ) : Option ℕ :=
  if 0 ≤ i ∧ i < (n : ℤ) then some i.toNat
  else if -(n : ℤ) ≤ i ∧ i < 0 then some (i + n).toNat
  else none

/-- Resolution of a two dimensional numpy index on the miasma array. -/
def SIRMap.cellIndex (m : SIRMap) (x y : ℤ) : Option Node := do
  let i ← npIndex m.height x
  let j ← npIndex m.width y
  pure (i, j)

/-- SIRMap.virus_level: read the miasma at a cell. -/
def SIRMap.virus_level (m : SIRMap) (x y : ℤ) : Option ℕ :=
  (m.cellIndex x y).map m.miasma

/-- SIRMap.contaminate: bitwise OR the uint8 concentration into the
miasma at one cell. -/
def SIRMap.contaminate (m : SIRMap) (x y : ℤ) (concentration : ℕ) : Option SIRMap :=
  (m.cellIndex x y).map fun p =>
    { m with miasma := fun q => if q = p then m.miasma q ||| concentration % 256 else m.miasma q }

/-- SIRMap.ventilate: arithmetic right shift of every cell of the grid by
two bits. -/
def SIRMap.ventilate (m : SIRMap) : SIRMap :=
  { m with miasma := fun p =>
      if p.1 < m.height ∧ p.2 < m.width then m.miasma p >>> 2 else m.miasma p }

/-! ## Random streams

Python draws from two generators (the random module and np.random).  We
model every draw site with its own stream plus a cursor; a claim about
every random stream quantifies over the stream functions.  Bounded
integer draws reduce the stream value into the exact range the Python
call returns. -/

/-- Explicit random streams with cursors. -/
structure RNG where
  floats : ℕ → ℚ
  fi : ℕ
  ints : ℕ → ℕ
  ii : ℕ
  npints : ℕ → ℕ
  ni : ℕ
  npfloats : ℕ → ℚ
  nfi : ℕ

/-- random.random(): a rational in the unit interval. -/
def RNG.nextFloat (r : RNG) : ℚ × RNG := (r.floats r.fi, { r with fi := r.fi + 1 })

/-- random.randint(0, 255): an integer in [0, 255]. -/
def RNG.nextInt256 (r : RNG) : ℕ × RNG := (r.ints r.ii % 256, { r with ii := r.ii + 1 })

/-- np.random.randint(0, bound): an integer in [0, bound), for bound > 0. -/
def RNG.nextNpInt (r : RNG) (bound : ℕ) : ℕ × RNG :=
  (r.npints r.ni % bound, { r with ni := r.ni + 1 })

/-- np.random.uniform: the unit-interval draw behind uniform(0.4, 0.95). -/
def RNG.nextNpFloat (r : RNG) : ℚ × RNG :=
  (r.npfloats r.nfi, { r with nfi := r.nfi + 1 })

/-- The values random.random() and the np.random unit draw can actually
take lie in the half-open unit interval. -/
def RNG.Valid (r : RNG) : Prop :=
  (∀ n, 0 ≤ r.floats n ∧ r.floats n < 1) ∧
  (∀ n, 0 ≤ r.npfloats n ∧ r.npfloats n < 1)

/-- np.argwhere of a boolean mask: the true cells in row-major order. -/
def argwhere (height width : ℕ) (mask : Node → Bool) : List Node :=
  (List.range height).flatMap fun i =>
    (List.range width).filterMap fun j => if mask (i, j) then some (i, j) else none

/-- random_idx from pathing.py: np.random.randint(0, len(idx) - 1) raises
ValueError whenever len(idx) - 1 is not positive (an empty or singleton
mask), and otherwise samples an index strictly below len(idx) - 1, so the
final argwhere entry is unreachable. -/
def random_idx (height width : ℕ) (mask : Node → Bool) (rng : RNG) :
    Option (Node × RNG) :=
  let idx := argwhere height width mask
  if idx.length ≤ 1 then none
  else
    let r := (rng.nextNpInt (idx.length - 1)).1
    let rng1 := (rng.nextNpInt (idx.length - 1)).2
    some (idx.getD r (0, 0), rng1)

/-! ## The agents (SIRNode) -/

/-- SIRStatus from sir_model.py. -/
inductive SIRStatus where
  | SUSCEPTIBLE
  | INFECTED
  | RECOVERED
  | QUARANTINED
deriving DecidableEq

/-- SIRNode: position, infection status, urgency and the queued path. -/
structure SIRNode where
  x : ℤ
  y : ℤ
  status : SIRStatus
  urgency : ℚ
  path : List Node
deriving DecidableEq

/-- SIRNode.is_contagious. -/
def SIRNode.is_contagious (a : SIRNode) : Bool := a.status = SIRStatus.INFECTED

/-- SIRNode.is_quarantined. -/
def SIRNode.is_quarantined (a : SIRNode) : Bool := a.status = SIRStatus.QUARANTINED

/-- SIRNode.is_susceptible. -/
def SIRNode.is_susceptible (a : SIRNode) : Bool := a.status = SIRStatus.SUSCEPTIBLE

/-- SIRNode.infect. -/
def SIRNode.infect (a : SIRNode) : SIRNode := { a with status := SIRStatus.INFECTED }

/-- Simulation parameters: the abstract A-star priority (ncost plus the
Euclidean heuristic, a deterministic rational per (ncost, node) pair),
the search fuel, and the epidemic rates of SIRModel. -/
structure Params where
  pri : ℕ → Node → ℚ
  fuel : ℕ
  recovery_rate : ℚ
  attack_rate : ℚ

/-- SIRNode.pathfind: nx.astar_path on the map graph from the current
position; a negative coordinate is a node the graph does not contain
(networkx would raise). -/
def SIRNode.pathfind (P : Params) (m : SIRMap) (a : SIRNode) (tgt : Node) :
    Option (List Node) :=
  if a.x < 0 ∨ a.y < 0 then none
  else astarPath m.graph P.pri (a.x.toNat, a.y.toNat) tgt P.fuel

/-- Store a freshly computed path on the agent, as self.path = astar. -/
def SIRNode.pathfindTo (P : Params) (m : SIRMap) (a : SIRNode) (tgt : Node) :
    Option SIRNode :=
  (a.pathfind P m tgt).map fun pth => { a with path := pth }

/-- SIRNode.convalesce: an infected or quarantined agent recovers when the
draw falls below the recovery rate, and then immediately paths to a random
open cell. -/
def SIRNode.convalesce (P : Params) (m : SIRMap) (a : SIRNode) (rng : RNG) :
    Option (SIRNode × RNG) :=
  if a.is_contagious || a.is_quarantined then
    let r := (rng.nextFloat).1
    let rng1 := (rng.nextFloat).2
    if r < P.recovery_rate then
      match random_idx m.height m.width m.openMask rng1 with
      | none => none
      | some (tgt, rng2) =>
        match SIRNode.pathfindTo P m { a with status := SIRStatus.RECOVERED } tgt with
        | none => none
        | some a2 => some (a2, rng2)
    else some (a, rng1)
  else some (a, rng)

/-- SIRNode.droplet_expose: a susceptible agent reads the ambient level at
its cell and becomes infected when randint(0, 255) falls below it. -/
def SIRNode.droplet_expose (m : SIRMap) (a : SIRNode) (rng : RNG) :
    Option (SIRNode × RNG) :=
  if a.is_susceptible then
    match m.virus_level a.x a.y with
    | none => none
    | some v =>
      let r := (rng.nextInt256).1
      let rng1 := (rng.nextInt256).2
      if r < v then some (a.infect, rng1) else some (a, rng1)
  else some (a, rng)

/-- SIRNode.droplet_spread: a contagious agent ORs the concentration
constant into its current cell. -/
def SIRNode.droplet_spread (m : SIRMap) (a : SIRNode) : Option SIRMap :=
  if a.is_contagious then m.contaminate a.x a.y 127 else some m

/-- SIRNode.random_move: one uncommitted random step, with cumulative
thresholds and a legality check in each branch. -/
def SIRNode.random_move (m : SIRMap) (a : SIRNode) (rng : RNG) : SIRNode × RNG :=
  let r := (rng.nextFloat).1
  let rng1 := (rng.nextFloat).2
  if r < 1/5 ∧ m.can_enter (a.x + 1) a.y 1 = true then ({ a with x := a.x + 1 }, rng1)
  else if r < 2/5 ∧ m.can_enter (a.x - 1) a.y 1 = true then ({ a with x := a.x - 1 }, rng1)
  else if r < 3/5 ∧ m.can_enter a.x (a.y + 1) 1 = true then ({ a with y := a.y + 1 }, rng1)
  else if r < 4/5 ∧ m.can_enter a.x (a.y - 1) 1 = true then ({ a with y := a.y - 1 }, rng1)
  else (a, rng1)

/-- SIRNode.new_task: pick a destination category by cumulative
thresholds, or fall back to a random step. -/
def SIRNode.new_task (P : Params) (m : SIRMap) (a : SIRNode) (rng : RNG) :
    Option (SIRNode × RNG) :=
  let r := (rng.nextFloat).1
  let rng1 := (rng.nextFloat).2
  if r < 1/10 then
    match random_idx m.height m.width m.target rng1 with
    | none => none
    | some (tgt, rng2) => (a.pathfindTo P m tgt).map fun a2 => (a2, rng2)
  else if r < 1/5 then
    match random_idx m.height m.width m.start rng1 with
    | none => none
    | some (tgt, rng2) => (a.pathfindTo P m tgt).map fun a2 => (a2, rng2)
  else if r < 1/2 then
    match random_idx m.height m.width m.valid rng1 with
    | none => none
    | some (tgt, rng2) => (a.pathfindTo P m tgt).map fun a2 => (a2, rng2)
  else
    some (a.random_move m rng1)

/-- The act branch shared by SIRNode.move: follow the queued path when one
exists, else pick a new task. -/
def SIRNode.moveAct (P : Params) (m : SIRMap) (a : SIRNode) (rng : RNG) :
    Option (SIRNode × RNG) :=
  match a.path with
  | [] => a.new_task P m rng
  | p :: rest => some ({ a with x := p.1, y := p.2, path := rest }, rng)

/-- SIRNode.move: quarantined agents only follow their path; others act
with probability urgency, and an acting infected agent self-quarantines
with probability 0.05, abandoning its current path for a route to a
random quarantine cell. -/
def SIRNode.move (P : Params) (m : SIRMap) (a : SIRNode) (rng : RNG) :
    Option (SIRNode × RNG) :=
  if a.is_quarantined then
    match a.path with
    | [] => some (a, rng)
    | p :: rest => some ({ a with x := p.1, y := p.2, path := rest }, rng)
  else
    let r := (rng.nextFloat).1
    let rng1 := (rng.nextFloat).2
    if r ≤ a.urgency then
      if a.is_contagious then
        let r2 := (rng1.nextFloat).1
        let rng2 := (rng1.nextFloat).2
        if r2 < 1/20 then
          match random_idx m.height m.width m.quarantine rng2 with
          | none => none
          | some (tgt, rng3) =>
            (a.pathfindTo P m tgt).map fun a2 =>
              ({ a2 with status := SIRStatus.QUARANTINED }, rng3)
        else a.moveAct P m rng2
      else a.moveAct P m rng1
    else some (a, rng1)

/-! ## The engine (SIRModel) -/

/-- The full mutable simulation state. -/
structure SimState where
  sirMap : SIRMap
  population : List SIRNode
  rng : RNG

/-- One population sweep in order, threading the map and the random
state through every agent. -/
def sweep (f : SIRNode → SIRMap → RNG → Option (SIRNode × SIRMap × RNG)) :
    List SIRNode → SIRMap → RNG → Option (List SIRNode × SIRMap × RNG)
  | [], m, r => some ([], m, r)
  | a :: rest, m, r =>
    match f a m r with
    | none => none
    | some (a1, m1, r1) =>
      match sweep f rest m1 r1 with
      | none => none
      | some (rest1, m2, r2) => some (a1 :: rest1, m2, r2)

/-- Body of the first sweep of model_step: droplet_spread then
convalesce. -/
def phase1Step (P : Params) (a : SIRNode) (m : SIRMap) (r : RNG) :
    Option (SIRNode × SIRMap × RNG) :=
  match SIRNode.droplet_spread m a with
  | none => none
  | some m1 =>
    match SIRNode.convalesce P m1 a r with
    | none => none
    | some (a1, r1) => some (a1, m1, r1)

/-- Body of the second sweep of model_step: move then droplet_expose. -/
def phase2Step (P : Params) (a : SIRNode) (m : SIRMap) (r : RNG) :
    Option (SIRNode × SIRMap × RNG) :=
  match SIRNode.move P m a r with
  | none => none
  | some (a1, r1) =>
    match SIRNode.droplet_expose m a1 r1 with
    | none => none
    | some (a2, r2) => some (a2, m, r2)

/-- The first sweep of model_step over the whole population. -/
def phase1 (P : Params) (s : SimState) : Option SimState :=
  (sweep (phase1Step P) s.population s.sirMap s.rng).map
    fun t => { sirMap := t.2.1, population := t.1, rng := t.2.2 }

/-- The second sweep of model_step over the whole population. -/
def phase2 (P : Params) (s : SimState) : Option SimState :=
  (sweep (phase2Step P) s.population s.sirMap s.rng).map
    fun t => { sirMap := t.2.1, population := t.1, rng := t.2.2 }

/-- SIRModel.model_step: the spread/convalesce sweep, then the
move/expose sweep, then one ventilation of the map. -/
def model_step (P : Params) (s : SimState) : Option SimState :=
  match phase1 P s with
  | none => none
  | some s1 =>
    match phase2 P s1 with
    | none => none
    | some s2 => some { s2 with sirMap := s2.sirMap.ventilate }

/-- Iterated ticks. -/
def stepN (P : Params) : ℕ → SimState → Option SimState
  | 0, s => some s
  | n + 1, s =>
    match model_step P s with
    | none => none
    | some s1 => stepN P n s1

/-- Creation and placement of one agent during SIRModel.__init__:
random_place from the start mask, an initial path to a random target
cell, and a uniform urgency draw from [0.4, 0.95). -/
def initAgent (P : Params) (m : SIRMap) (rng : RNG) : Option (SIRNode × RNG) :=
  match random_idx m.height m.width m.start rng with
  | none => none
  | some (pos, rng1) =>
    let a : SIRNode :=
      { x := pos.1, y := pos.2, status := SIRStatus.SUSCEPTIBLE, urgency := 1, path := [] }
    match random_idx m.height m.width m.target rng1 with
    | none => none
    | some (tgt, rng2) =>
      match a.pathfindTo P m tgt with
      | none => none
      | some a2 =>
        let u := (rng2.nextNpFloat).1
        let rng3 := (rng2.nextNpFloat).2
        some ({ a2 with urgency := 2/5 + 11/20 * u }, rng3)

/-- Placement of the whole population, in creation order. -/
def initAgents (P : Params) (m : SIRMap) : ℕ → RNG → Option (List SIRNode × RNG)
  | 0, rng => some ([], rng)
  | k + 1, rng =>
    match initAgent P m rng with
    | none => none
    | some (a, rng1) =>
      match initAgents P m k rng1 with
      | none => none
      | some (rest, rng2) => some (a :: rest, rng2)

/-- Infect the first carriers agents, as the final loop of
SIRModel.__init__ does. -/
def infectFirst (k : ℕ) (l : List SIRNode) : List SIRNode :=
  (l.take k).map SIRNode.infect ++ l.drop k

/-- SIRModel.__init__: load the map, place the population, infect the
first carriers agents. -/
def SIRModel.make (P : Params) (height width : ℕ) (img : Node → RGB)
    (population carriers : ℕ) (rng : RNG) : Option SimState :=
  let m := loadSIRMap height width img
  match initAgents P m population rng with
  | none => none
  | some (agents, rng1) =>
    some { sirMap := m, population := infectFirst carriers agents, rng := rng1 }

/-- Number of susceptible agents, the length of list_susceptible. -/
def susceptibleCount (s : SimState) : ℕ :=
  (s.population.filter SIRNode.is_susceptible).length

/-- Number of agents with status INFECTED. -/
def infectedStatusCount (s : SimState) : ℕ :=
  (s.population.filter SIRNode.is_contagious).length

/-! ## Claim C1: what pathfind returns -/

/-- A 2 by 2 fully open demonstration map. -/
def demoMap : SIRMap := loadSIRMap 2 2 (fun _ => Terrain.OPEN)

/-- A demonstration priority function; the searches below terminate before
any heuristic value is compared, so any rational-valued priority stands in
for the float Euclidean one. -/
def demoPri : ℕ → Node → ℚ := fun n _ => Rat.ofInt (Int.ofNat n)

/-- Demonstration parameters with the default rates of SIRModel. -/
def demoParams : Params :=
  { pri := demoPri, fuel := 30, recovery_rate := 1/50, attack_rate := 4/5 }

/-- A freshly constructed agent at the origin. -/
def demoAgent : SIRNode :=
  { x := 0, y := 0, status := SIRStatus.SUSCEPTIBLE, urgency := 1, path := [] }

/-- C1 counterexample: pathfind from a cell to itself returns the
one-element path holding that very cell, so the returned path contains
the start cell and the start-to-itself path is not empty. -/
theorem C1_counterexample :
    SIRNode.pathfind demoParams demoMap demoAgent (0, 0) = some [(0, 0)] ∧
    some [((0, 0) : Node)] ≠ some ([] : List Node) ∧
    ((0, 0) : Node) ∈ [((0, 0) : Node)] := by
  refine ⟨by with_unfolding_all rfl, by simp, by simp⟩

/-- C1 amended: pathfind returns the full node sequence of the networkx
search, which includes the start cell as its first element and the target
as its last; from a cell to itself it returns the singleton path of that
cell, not a failure. -/
theorem C1_amended_path_endpoints :
    (∀ (P : Params) (m : SIRMap) (a : SIRNode) (tgt : Node) (p : List Node),
      SIRNode.pathfind P m a tgt = some p →
      p.head? = some (a.x.toNat, a.y.toNat) ∧ p.getLast? = some tgt) ∧
    (∀ (P : Params) (m : SIRMap) (a : SIRNode),
      0 ≤ a.x → 0 ≤ a.y → 1 ≤ P.fuel →
      SIRNode.pathfind P m a (a.x.toNat, a.y.toNat) =
        some [(a.x.toNat, a.y.toNat)]) := by
  constructor
  · intro P m a tgt p h
    unfold SIRNode.pathfind at h
    by_cases hneg : a.x < 0 ∨ a.y < 0
    · rw [if_pos hneg] at h; cases h
    · rw [if_neg hneg] at h
      unfold astarPath at h
      refine astarLoop_sound P.fuel _ _ _ _ p ?_ ?_ h
      · intro e he hp
        simp only [List.mem_singleton] at he
        subst he
        rfl
      · intro q hq _
        simp at hq
  · intro P m a hx hy hfuel
    unfold SIRNode.pathfind
    rw [if_neg (by omega)]
    cases hf : P.fuel with
    | zero => omega
    | succ k =>
      unfold astarPath astarLoop astarStep
      rw [show popMin [⟨0, 0, (a.x.toNat, a.y.toNat), 0, none⟩] =
          some (⟨0, 0, (a.x.toNat, a.y.toNat), 0, none⟩, []) from rfl]
      dsimp only
      rw [if_pos rfl]
      rfl

/-- Witness for the amended C1 at a concrete map, agent and target. -/
theorem C1_witness :
    (([((0, 0) : Node), (0, 1)]).head? = some (demoAgent.x.toNat, demoAgent.y.toNat) ∧
      ([((0, 0) : Node), (0, 1)]).getLast? = some (0, 1)) ∧
    SIRNode.pathfind demoParams demoMap demoAgent
      (demoAgent.x.toNat, demoAgent.y.toNat) =
      some [(demoAgent.x.toNat, demoAgent.y.toNat)] :=
  ⟨C1_amended_path_endpoints.1 demoParams demoMap demoAgent (0, 1) _
      (by with_unfolding_all rfl),
   C1_amended_path_endpoints.2 demoParams demoMap demoAgent
      (by decide) (by decide) (by decide)⟩

/-! ## Claim C10: random_idx sampling -/

theorem argwhere_mask {height width : ℕ} {mask : Node → Bool} {p : Node}
    (h : p ∈ argwhere height width mask) : mask p = true := by
  simp only [argwhere, List.mem_flatMap, List.mem_filterMap] at h
  obtain ⟨i, _, j, _, hj⟩ := h
  by_cases hm : mask (i, j)
  · rw [if_pos hm] at hj; cases hj; exact hm
  · rw [if_neg hm] at hj; cases hj

theorem argwhere_row_mem {i width : ℕ} {mask : Node → Bool} {p : Node}
    (h : p ∈ (List.range width).filterMap
      fun j => if mask (i, j) then some (i, j) else none) : p.1 = i := by
  simp only [List.mem_filterMap] at h
  obtain ⟨j, _, hj⟩ := h
  by_cases hm : mask (i, j)
  · rw [if_pos hm] at hj; cases hj; rfl
  · rw [if_neg hm] at hj; cases hj

theorem argwhere_nodup (height width : ℕ) (mask : Node → Bool) :
    (argwhere height width mask).Nodup := by
  apply List.nodup_flatMap.2
  constructor
  · intro i _
    apply List.Nodup.filterMap ?_ (List.nodup_range width)
    intro a a' b hb hb'
    by_cases hm : mask (i, a) = true
    · rw [if_pos hm] at hb
      by_cases hm' : mask (i, a') = true
      · rw [if_pos hm'] at hb'
        simp only [Option.mem_def, Option.some.injEq] at hb hb'
        exact ((Prod.mk.injEq i a i a').mp (hb.trans hb'.symm)).2
      · rw [if_neg hm'] at hb'; cases hb'
    · rw [if_neg hm] at hb; cases hb
  · have : ∀ i j : ℕ, i ≠ j →
        (Function.onFun List.Disjoint fun i =>
          (List.range width).filterMap fun j => if mask (i, j) then some (i, j) else none) i j := by
      intro i j hij
      intro x hxi hxj
      have h1 := argwhere_row_mem hxi
      have h2 := argwhere_row_mem hxj
      exact hij (h1 ▸ h2 ▸ rfl)
    exact List.Pairwise.imp (fun hij => this _ _ hij) (List.nodup_range height)

/-- C10: with at least two true cells, random_idx returns a true cell
that is never the last argwhere entry; with exactly one true cell it
raises (np.random.randint(0, 0) is a ValueError) instead of returning
that cell. -/
theorem C10_random_idx_behaviour (height width : ℕ) (mask : Node → Bool) (rng : RNG) :
    (2 ≤ (argwhere height width mask).length →
      ∃ p rng1, random_idx height width mask rng = some (p, rng1) ∧
        mask p = true ∧ (argwhere height width mask).getLast? ≠ some p) ∧
    ((argwhere height width mask).length = 1 →
      random_idx height width mask rng = none) := by
  constructor
  · intro hlen
    unfold random_idx RNG.nextNpInt
    rw [if_neg (by omega)]
    have hpos : 0 < (argwhere height width mask).length - 1 := by omega
    have hr : rng.npints rng.ni % ((argwhere height width mask).length - 1) <
        (argwhere height width mask).length - 1 := Nat.mod_lt _ hpos
    have hrlen : rng.npints rng.ni % ((argwhere height width mask).length - 1) <
        (argwhere height width mask).length := by omega
    refine ⟨_, _, rfl, ?_, ?_⟩
    · rw [List.getD_eq_getElem _ _ hrlen]
      exact argwhere_mask (List.getElem_mem hrlen)
    · rw [List.getD_eq_getElem _ _ hrlen]
      rw [List.getLast?_eq_getElem?,
        List.getElem?_eq_getElem (by omega : (argwhere height width mask).length - 1 <
          (argwhere height width mask).length)]
      intro hcontra
      simp only [Option.some.injEq] at hcontra
      have hii := ((argwhere_nodup height width mask).getElem_inj_iff).mp hcontra
      omega
  · intro h1
    unfold random_idx
    rw [if_pos (by omega)]

/-- A constant random source for witnesses and counterexamples. -/
def constRNG : RNG :=
  { floats := fun _ => 0, fi := 0, ints := fun _ => 0, ii := 0,
    npints := fun _ => 0, ni := 0, npfloats := fun _ => 0, nfi := 0 }

/-- A mask of a 1 by 3 strip whose first two cells are set. -/
def pairMask : Node → Bool := fun p => p.2 ≤ 1

/-- A mask of a single cell. -/
def singletonMask : Node → Bool := fun p => p = (0, 0)

/-- Witness for C10 at concrete masks. -/
theorem C10_witness :
    (∃ p rng1, random_idx 1 3 pairMask constRNG = some (p, rng1) ∧
      pairMask p = true ∧ (argwhere 1 3 pairMask).getLast? ≠ some p) ∧
    random_idx 1 1 singletonMask constRNG = none :=
  ⟨(C10_random_idx_behaviour 1 3 pairMask constRNG).1 (by decide),
   (C10_random_idx_behaviour 1 1 singletonMask constRNG).2 (by decide)⟩

/-! ## Claim C9: no load-time validation of the terrain -/

theorem argwhere_of_empty (height width : ℕ) (mask : Node → Bool)
    (h : ∀ p, mask p = false) : argwhere height width mask = [] := by
  unfold argwhere
  apply List.flatMap_eq_nil_iff.2
  intro i _
  apply List.filterMap_eq_nil_iff.2
  intro j _
  rw [h (i, j)]
  rfl

/-- C9: the code has no load-time validation.  With zero start-class
pixels, SIRMap construction succeeds and returns the unvalidated record,
while the error only surfaces when the empty start mask is sampled:
random_idx fails, so building a model with any agent fails during
placement, not during load. -/
theorem C9_no_load_time_validation (height width : ℕ) (img : Node → RGB)
    (hempty : ∀ p, img p ≠ Terrain.START) (rng : RNG) (P : Params)
    (population carriers : ℕ) (hpop : 1 ≤ population) :
    loadSIRMap height width img =
      { height := height, width := width, img := img, miasma := fun _ => 0 } ∧
    random_idx height width (loadSIRMap height width img).start rng = none ∧
    SIRModel.make P height width img population carriers rng = none := by
  have hmask : ∀ p, (loadSIRMap height width img).start p = false := by
    intro p
    unfold loadSIRMap SIRMap.start SIRMap.isPixelType
    simp only [decide_eq_false_iff_not]
    exact hempty p
  have hargs : argwhere height width (loadSIRMap height width img).start = [] :=
    argwhere_of_empty _ _ _ hmask
  have hridx : ∀ (hh ww : ℕ) (r : RNG),
      random_idx hh ww (loadSIRMap height width img).start r = none := by
    intro hh ww r
    unfold random_idx
    rw [if_pos (by rw [argwhere_of_empty hh ww _ hmask]; simp)]
  refine ⟨rfl, hridx height width rng, ?_⟩
  cases population with
  | zero => omega
  | succ k =>
    unfold SIRModel.make initAgents initAgent
    dsimp only
    rw [hridx _ _ rng]

/-- Witness for C9 at a concrete start-free image. -/
theorem C9_witness :
    loadSIRMap 2 2 (fun _ => Terrain.OPEN) =
      { height := 2, width := 2, img := fun _ => Terrain.OPEN, miasma := fun _ => 0 } ∧
    random_idx 2 2 (loadSIRMap 2 2 (fun _ => Terrain.OPEN)).start constRNG = none ∧
    SIRModel.make demoParams 2 2 (fun _ => Terrain.OPEN) 1 0 constRNG = none :=
  C9_no_load_time_validation 2 2 (fun _ => Terrain.OPEN) (by intro p; show Terrain.OPEN ≠ Terrain.START; decide) constRNG
    demoParams 1 0 (by decide)

/-! ## Claim C3: ventilation decay -/

theorem ventilate_height (m : SIRMap) : m.ventilate.height = m.height := rfl

theorem ventilate_width (m : SIRMap) : m.ventilate.width = m.width := rfl

theorem ventilate_iterate_height (m : SIRMap) (n : ℕ) :
    ((SIRMap.ventilate)^[n] m).height = m.height := by
  induction n with
  | zero => rfl
  | succ n ih => rw [Function.iterate_succ_apply', ventilate_height, ih]

theorem ventilate_iterate_width (m : SIRMap) (n : ℕ) :
    ((SIRMap.ventilate)^[n] m).width = m.width := by
  induction n with
  | zero => rfl
  | succ n ih => rw [Function.iterate_succ_apply', ventilate_width, ih]

/-- C3: applying ventilate n times with no intervening contaminate calls
takes the level of an in-grid cell from L0 to floor(L0 / 4 ^ n), and any
uint8 level (below 256) reaches 0 after 4 applications. -/
theorem C3_ventilate_decay (m : SIRMap) (p : Node) (n : ℕ)
    (h1 : p.1 < m.height) (h2 : p.2 < m.width) :
    ((SIRMap.ventilate)^[n] m).miasma p = m.miasma p / 4 ^ n ∧
    (m.miasma p < 256 → ((SIRMap.ventilate)^[4] m).miasma p = 0) := by
  have key : ∀ k : ℕ, ((SIRMap.ventilate)^[k] m).miasma p = m.miasma p / 4 ^ k := by
    intro k
    induction k with
    | zero => simp
    | succ k ih =>
      rw [Function.iterate_succ_apply']
      have hb : p.1 < ((SIRMap.ventilate)^[k] m).height ∧
          p.2 < ((SIRMap.ventilate)^[k] m).width := by
        rw [ventilate_iterate_height, ventilate_iterate_width]; exact ⟨h1, h2⟩
      show (if p.1 < ((SIRMap.ventilate)^[k] m).height ∧
          p.2 < ((SIRMap.ventilate)^[k] m).width then
        ((SIRMap.ventilate)^[k] m).miasma p >>> 2 else
        ((SIRMap.ventilate)^[k] m).miasma p) = m.miasma p / 4 ^ (k + 1)
      rw [if_pos hb, ih, Nat.shiftRight_eq_div_pow, Nat.div_div_eq_div_mul]
      have hp4 : (4 : ℕ) ^ k * 2 ^ 2 = 4 ^ (k + 1) := by rw [pow_succ 4 k]; norm_num
      rw [hp4]
  refine ⟨key n, fun hlt => ?_⟩
  rw [key 4]
  exact Nat.div_eq_of_lt (by norm_num at hlt ⊢; omega)

/-- A one-cell demonstration map for the witnesses. -/
def unitMap : SIRMap := loadSIRMap 1 1 (fun _ => Terrain.OPEN)

/-- Witness for C3 at a concrete map and cell. -/
theorem C3_witness :
    ((SIRMap.ventilate)^[2] unitMap).miasma (0, 0) = unitMap.miasma (0, 0) / 4 ^ 2 ∧
    ((SIRMap.ventilate)^[4] unitMap).miasma (0, 0) = 0 :=
  ⟨(C3_ventilate_decay unitMap (0, 0) 2 (by decide) (by decide)).1,
   (C3_ventilate_decay unitMap (0, 0) 4 (by decide) (by decide)).2 (by decide)⟩

/-! ## Claim C4: contamination is idempotent and stays a byte -/

/-- C4: a second contaminate with the same concentration changes nothing
(bitwise OR is idempotent), and one contaminate keeps every level below
256 when it was below 256. -/
theorem C4_contaminate_idempotent (m m1 m2 : SIRMap) (x y : ℤ) (c : ℕ)
    (h1 : SIRMap.contaminate m x y c = some m1)
    (h2 : SIRMap.contaminate m1 x y c = some m2) :
    (∀ q, m2.miasma q = m1.miasma q) ∧
    (∀ q, m.miasma q < 256 → m1.miasma q < 256) := by
  unfold SIRMap.contaminate at h1 h2
  cases hidx : m.cellIndex x y with
  | none => rw [hidx] at h1; simp at h1
  | some p =>
    rw [hidx] at h1
    simp only [Option.map_some', Option.some.injEq] at h1
    have hidx1 : m1.cellIndex x y = some p := by rw [← h1]; exact hidx
    rw [hidx1] at h2
    simp only [Option.map_some', Option.some.injEq] at h2
    constructor
    · intro q
      rw [← h2]
      dsimp only
      by_cases hq : q = p
      · simp only [if_pos hq]
        rw [← h1]
        dsimp only
        simp only [if_pos hq]
        rw [Nat.lor_assoc]
        simp
      · simp only [if_neg hq]
    · intro q hq
      rw [← h1]
      dsimp only
      by_cases hqp : q = p
      · simp only [if_pos hqp]
        have h256 : (256 : ℕ) = 2 ^ 8 := by norm_num
        rw [h256] at hq ⊢
        exact Nat.or_lt_two_pow hq (h256 ▸ Nat.mod_lt _ (by norm_num))
      · simp only [if_neg hqp]
        exact hq

/-- The one-cell map after one concrete contaminate call. -/
def unitMap1 : SIRMap :=
  { unitMap with miasma := fun q =>
      if q = (0, 0) then unitMap.miasma q ||| 127 % 256 else unitMap.miasma q }

/-- The one-cell map after a second identical contaminate call. -/
def unitMap2 : SIRMap :=
  { unitMap1 with miasma := fun q =>
      if q = (0, 0) then unitMap1.miasma q ||| 127 % 256 else unitMap1.miasma q }

/-- Witness for C4 at a concrete map and cell. -/
theorem C4_witness :
    unitMap2.miasma (0, 0) = unitMap1.miasma (0, 0) ∧ unitMap1.miasma (0, 0) < 256 :=
  ⟨(C4_contaminate_idempotent unitMap unitMap1 unitMap2 0 0 127 rfl rfl).1 (0, 0),
   (C4_contaminate_idempotent unitMap unitMap1 unitMap2 0 0 127 rfl rfl).2 (0, 0)
     (by decide)⟩

/-! ## Claim C5: can_enter fails closed and reads the valid mask -/

/-- C5: can_enter never raises (it is a total boolean function); it is
false for every out-of-bounds coordinate, negative ones included, and in
bounds it is exactly the valid mask, which is NOT (walls OR quarantine). -/
theorem C5_can_enter_fails_closed (m : SIRMap) (x y : ℤ) :
    SIRMap.can_enter m x y 1 = true ↔
      0 ≤ x ∧ x < (m.height : ℤ) ∧ 0 ≤ y ∧ y < (m.width : ℤ) ∧
      m.walls (x.toNat, y.toNat) = false ∧ m.quarantine (x.toNat, y.toNat) = false := by
  unfold SIRMap.can_enter
  by_cases hge : (m.height : ℤ) ≤ x ∨ (m.width : ℤ) ≤ y
  · rw [if_pos hge]
    simp only [Bool.false_eq_true, false_iff]
    rintro ⟨_, hx, _, hy, -, -⟩
    rcases hge with h | h <;> omega
  · rw [if_neg hge]
    by_cases hneg : x < 0 ∨ y < 0
    · rw [if_pos hneg]
      simp only [Bool.false_eq_true, false_iff]
      rintro ⟨hx, _, hy, -, -, -⟩
      rcases hneg with h | h <;> omega
    · rw [if_neg hneg]
      push_neg at hge hneg
      have hval : m.valid (x.toNat, y.toNat) =
          !(m.quarantine (x.toNat, y.toNat) || m.walls (x.toNat, y.toNat)) := rfl
      cases hq : m.quarantine (x.toNat, y.toNat) with
      | true =>
        have hv2 : m.valid (x.toNat, y.toNat) = false := by rw [hval, hq]; rfl
        rw [hv2]
        simp [hq]
      | false =>
        cases hw : m.walls (x.toNat, y.toNat) with
        | true =>
          have hv2 : m.valid (x.toNat, y.toNat) = false := by rw [hval, hq, hw]; rfl
          rw [hv2]
          simp [hw]
        | false =>
          have hv2 : m.valid (x.toNat, y.toNat) = true := by rw [hval, hq, hw]; rfl
          rw [hv2]
          constructor
          · intro _
            exact ⟨by omega, by omega, by omega, by omega, rfl, rfl⟩
          · intro _
            decide

/-! ## Claim C6: the status transition graph -/

/-- The four transitions the spec allows. -/
inductive StatusEdge : SIRStatus → SIRStatus → Prop where
  | sus_inf : StatusEdge SIRStatus.SUSCEPTIBLE SIRStatus.INFECTED
  | inf_quar : StatusEdge SIRStatus.INFECTED SIRStatus.QUARANTINED
  | inf_rec : StatusEdge SIRStatus.INFECTED SIRStatus.RECOVERED
  | quar_rec : StatusEdge SIRStatus.QUARANTINED SIRStatus.RECOVERED

/-- A population sweep relates input and output agents pointwise, for any
per-agent relation established by the body and any map-and-random-state
invariant it maintains. -/
theorem sweep_forall2 {V : SIRMap → RNG → Prop} {R : SIRNode → SIRNode → Prop}
    {f : SIRNode → SIRMap → RNG → Option (SIRNode × SIRMap × RNG)}
    (hf : ∀ a m r out, V m r → f a m r = some out → R a out.1 ∧ V out.2.1 out.2.2) :
    ∀ (l : List SIRNode) (m : SIRMap) (r : RNG) (out : List SIRNode × SIRMap × RNG),
      V m r → sweep f l m r = some out → List.Forall₂ R l out.1 ∧ V out.2.1 out.2.2 := by
  intro l
  induction l with
  | nil =>
    intro m r out hv h
    unfold sweep at h
    cases h
    exact ⟨List.Forall₂.nil, hv⟩
  | cons a rest ih =>
    intro m r out hv h
    unfold sweep at h
    cases h1 : f a m r with
    | none => rw [h1] at h; cases h
    | some t1 =>
      obtain ⟨a1, m1, r1⟩ := t1
      rw [h1] at h
      dsimp only at h
      cases h2 : sweep f rest m1 r1 with
      | none => rw [h2] at h; cases h
      | some t2 =>
        obtain ⟨rest1, m2, r2⟩ := t2
        rw [h2] at h
        dsimp only at h
        cases h
        obtain ⟨hr1, hv1⟩ := hf a m r (a1, m1, r1) hv h1
        obtain ⟨hrest, hv2⟩ := ih m1 r1 (rest1, m2, r2) hv1 h2
        exact ⟨List.Forall₂.cons hr1 hrest, hv2⟩

/-- Pointwise composition of two sweeps. -/
theorem forall2_trans {α : Type} {R S T : α → α → Prop}
    (hc : ∀ a b c, R a b → S b c → T a c) :
    ∀ {l1 l2 l3 : List α}, List.Forall₂ R l1 l2 → List.Forall₂ S l2 l3 →
      List.Forall₂ T l1 l3 := by
  intro l1 l2 l3 h1
  induction h1 generalizing l3 with
  | nil => intro h2; cases h2; exact List.Forall₂.nil
  | cons hab hrest ih =>
    intro h2
    cases h2 with
    | cons hbc hrest2 => exact List.Forall₂.cons (hc _ _ _ hab hbc) (ih hrest2)

theorem pathfindTo_spec {P : Params} {m : SIRMap} {a : SIRNode} {tgt : Node}
    {a2 : SIRNode} (h : SIRNode.pathfindTo P m a tgt = some a2) :
    a2.status = a.status ∧ a2.x = a.x ∧ a2.y = a.y ∧ a2.urgency = a.urgency := by
  unfold SIRNode.pathfindTo at h
  cases hp : a.pathfind P m tgt with
  | none => rw [hp] at h; cases h
  | some pth =>
    rw [hp] at h
    simp only [Option.map_some', Option.some.injEq] at h
    rw [← h]
    exact ⟨rfl, rfl, rfl, rfl⟩

theorem convalesce_spec {P : Params} {m : SIRMap} {a : SIRNode} {rng : RNG}
    {out : SIRNode × RNG} (h : SIRNode.convalesce P m a rng = some out) :
    (out.1.status = a.status ∨
      ((a.status = SIRStatus.INFECTED ∨ a.status = SIRStatus.QUARANTINED) ∧
        out.1.status = SIRStatus.RECOVERED)) ∧
    out.1.x = a.x ∧ out.1.y = a.y := by
  unfold SIRNode.convalesce at h
  by_cases hc : (a.is_contagious || a.is_quarantined) = true
  · rw [if_pos hc] at h
    dsimp only at h
    by_cases hrate : (rng.nextFloat).1 < P.recovery_rate
    · rw [if_pos hrate] at h
      cases hidx : random_idx m.height m.width m.openMask (rng.nextFloat).2 with
      | none => rw [hidx] at h; cases h
      | some t =>
        obtain ⟨tgt, rng2⟩ := t
        rw [hidx] at h
        dsimp only at h
        cases hpf : SIRNode.pathfindTo P m { a with status := SIRStatus.RECOVERED } tgt with
        | none => rw [hpf] at h; cases h
        | some a2 =>
          rw [hpf] at h
          cases h
          obtain ⟨hst, hx, hy, _⟩ := pathfindTo_spec hpf
          refine ⟨Or.inr ⟨?_, hst⟩, hx, hy⟩
          unfold SIRNode.is_contagious SIRNode.is_quarantined at hc
          rcases Bool.or_eq_true_iff.mp hc with h1 | h1
          · exact Or.inl (by simpa using h1)
          · exact Or.inr (by simpa using h1)
    · rw [if_neg hrate] at h
      cases h
      exact ⟨Or.inl rfl, rfl, rfl⟩
  · rw [if_neg hc] at h
    cases h
    exact ⟨Or.inl rfl, rfl, rfl⟩

theorem droplet_expose_spec {m : SIRMap} {a : SIRNode} {rng : RNG}
    {out : SIRNode × RNG} (h : SIRNode.droplet_expose m a rng = some out) :
    (out.1.status = a.status ∨
      (a.status = SIRStatus.SUSCEPTIBLE ∧ out.1.status = SIRStatus.INFECTED)) ∧
    out.1.x = a.x ∧ out.1.y = a.y ∧ out.1.path = a.path := by
  unfold SIRNode.droplet_expose at h
  by_cases hs : a.is_susceptible = true
  · rw [if_pos hs] at h
    cases hv : m.virus_level a.x a.y with
    | none => rw [hv] at h; cases h
    | some v =>
      rw [hv] at h
      dsimp only at h
      by_cases hlt : (rng.nextInt256).1 < v
      · rw [if_pos hlt] at h
        cases h
        unfold SIRNode.is_susceptible at hs
        exact ⟨Or.inr ⟨by simpa using hs, rfl⟩, rfl, rfl, rfl⟩
      · rw [if_neg hlt] at h
        cases h
        exact ⟨Or.inl rfl, rfl, rfl, rfl⟩
  · rw [if_neg hs] at h
    cases h
    exact ⟨Or.inl rfl, rfl, rfl, rfl⟩

theorem random_move_spec (m : SIRMap) (a : SIRNode) (rng : RNG) :
    (SIRNode.random_move m a rng).1.status = a.status ∧
    (((SIRNode.random_move m a rng).1.x = a.x ∧
        (SIRNode.random_move m a rng).1.y = a.y) ∨
      m.can_enter (SIRNode.random_move m a rng).1.x
        (SIRNode.random_move m a rng).1.y 1 = true) := by
  unfold SIRNode.random_move
  dsimp only
  split_ifs with h1 h2 h3 h4
  · exact ⟨rfl, Or.inr h1.2⟩
  · exact ⟨rfl, Or.inr h2.2⟩
  · exact ⟨rfl, Or.inr h3.2⟩
  · exact ⟨rfl, Or.inr h4.2⟩
  · exact ⟨rfl, Or.inl ⟨rfl, rfl⟩⟩

theorem new_task_spec {P : Params} {m : SIRMap} {a : SIRNode} {rng : RNG}
    {out : SIRNode × RNG} (h : SIRNode.new_task P m a rng = some out) :
    out.1.status = a.status ∧
    ((out.1.x = a.x ∧ out.1.y = a.y) ∨
      m.can_enter out.1.x out.1.y 1 = true) := by
  unfold SIRNode.new_task at h
  dsimp only at h
  split_ifs at h with h1 h2 h3
  · cases hidx : random_idx m.height m.width m.target (rng.nextFloat).2 with
    | none => rw [hidx] at h; cases h
    | some t =>
      obtain ⟨tgt, rng2⟩ := t
      rw [hidx] at h
      dsimp only at h
      cases hpf : a.pathfindTo P m tgt with
      | none => rw [hpf] at h; cases h
      | some a2 =>
        rw [hpf] at h
        simp only [Option.map_some', Option.some.injEq] at h
        rw [← h]
        obtain ⟨hst, hx, hy, _⟩ := pathfindTo_spec hpf
        exact ⟨hst, Or.inl ⟨hx, hy⟩⟩
  · cases hidx : random_idx m.height m.width m.start (rng.nextFloat).2 with
    | none => rw [hidx] at h; cases h
    | some t =>
      obtain ⟨tgt, rng2⟩ := t
      rw [hidx] at h
      dsimp only at h
      cases hpf : a.pathfindTo P m tgt with
      | none => rw [hpf] at h; cases h
      | some a2 =>
        rw [hpf] at h
        simp only [Option.map_some', Option.some.injEq] at h
        rw [← h]
        obtain ⟨hst, hx, hy, _⟩ := pathfindTo_spec hpf
        exact ⟨hst, Or.inl ⟨hx, hy⟩⟩
  · cases hidx : random_idx m.height m.width m.valid (rng.nextFloat).2 with
    | none => rw [hidx] at h; cases h
    | some t =>
      obtain ⟨tgt, rng2⟩ := t
      rw [hidx] at h
      dsimp only at h
      cases hpf : a.pathfindTo P m tgt with
      | none => rw [hpf] at h; cases h
      | some a2 =>
        rw [hpf] at h
        simp only [Option.map_some', Option.some.injEq] at h
        rw [← h]
        obtain ⟨hst, hx, hy, _⟩ := pathfindTo_spec hpf
        exact ⟨hst, Or.inl ⟨hx, hy⟩⟩
  · cases h
    exact random_move_spec m a (rng.nextFloat).2

theorem moveAct_spec {P : Params} {m : SIRMap} {a : SIRNode} {rng : RNG}
    {out : SIRNode × RNG} (h : SIRNode.moveAct P m a rng = some out) :
    out.1.status = a.status ∧
    ((out.1.x = a.x ∧ out.1.y = a.y) ∨
      m.can_enter out.1.x out.1.y 1 = true ∨
      (∃ rest, a.path = (out.1.x.toNat, out.1.y.toNat) :: rest ∧
        0 ≤ out.1.x ∧ 0 ≤ out.1.y)) := by
  unfold SIRNode.moveAct at h
  cases hp : a.path with
  | nil =>
    rw [hp] at h
    obtain ⟨hst, hpos⟩ := new_task_spec h
    exact ⟨hst, hpos.imp id Or.inl⟩
  | cons p rest =>
    rw [hp] at h
    cases h
    refine ⟨rfl, Or.inr (Or.inr ⟨rest, by simp [hp], by simp, by simp⟩)⟩

theorem move_spec {P : Params} {m : SIRMap} {a : SIRNode} {rng : RNG}
    {out : SIRNode × RNG} (h : SIRNode.move P m a rng = some out) :
    (out.1.status = a.status ∨
      (a.status = SIRStatus.INFECTED ∧ out.1.status = SIRStatus.QUARANTINED)) ∧
    ((out.1.x = a.x ∧ out.1.y = a.y) ∨
      m.can_enter out.1.x out.1.y 1 = true ∨
      (∃ rest, a.path = (out.1.x.toNat, out.1.y.toNat) :: rest ∧
        0 ≤ out.1.x ∧ 0 ≤ out.1.y)) := by
  unfold SIRNode.move at h
  by_cases hq : a.is_quarantined = true
  · rw [if_pos hq] at h
    cases hp : a.path with
    | nil =>
      rw [hp] at h
      cases h
      exact ⟨Or.inl rfl, Or.inl ⟨rfl, rfl⟩⟩
    | cons p rest =>
      rw [hp] at h
      cases h
      refine ⟨Or.inl rfl, Or.inr (Or.inr ⟨rest, by simp [hp], by simp, by simp⟩)⟩
  · rw [if_neg hq] at h
    by_cases hu : (rng.nextFloat).1 ≤ a.urgency
    · rw [if_pos hu] at h
      by_cases hcont : a.is_contagious = true
      · rw [if_pos hcont] at h
        dsimp only at h
        by_cases hroll : ((rng.nextFloat).2.nextFloat).1 < 1/20
        · rw [if_pos hroll] at h
          cases hidx : random_idx m.height m.width m.quarantine
              ((rng.nextFloat).2.nextFloat).2 with
          | none => rw [hidx] at h; cases h
          | some t =>
            obtain ⟨tgt, rng3⟩ := t
            rw [hidx] at h
            dsimp only at h
            cases hpf : a.pathfindTo P m tgt with
            | none => rw [hpf] at h; cases h
            | some a2 =>
              rw [hpf] at h
              simp only [Option.map_some', Option.some.injEq] at h
              rw [← h]
              obtain ⟨hst, hx, hy, _⟩ := pathfindTo_spec hpf
              have hinf : a.status = SIRStatus.INFECTED := by
                unfold SIRNode.is_contagious at hcont
                simpa using hcont
              exact ⟨Or.inr ⟨hinf, rfl⟩, Or.inl ⟨hx, hy⟩⟩
        · rw [if_neg hroll] at h
          obtain ⟨hst, hpos⟩ := moveAct_spec h
          exact ⟨Or.inl hst, hpos⟩
      · rw [if_neg hcont] at h
        obtain ⟨hst, hpos⟩ := moveAct_spec h
        exact ⟨Or.inl hst, hpos⟩
    · rw [if_neg hu] at h
      cases h
      exact ⟨Or.inl rfl, Or.inl ⟨rfl, rfl⟩⟩

theorem phase1Step_spec {P : Params} {a : SIRNode} {m : SIRMap} {r : RNG}
    {out : SIRNode × SIRMap × RNG} (h : phase1Step P a m r = some out) :
    Relation.ReflTransGen StatusEdge a.status out.1.status ∧
    (a.status = SIRStatus.RECOVERED → out.1.status = SIRStatus.RECOVERED) ∧
    out.1.x = a.x ∧ out.1.y = a.y := by
  unfold phase1Step at h
  cases hd : SIRNode.droplet_spread m a with
  | none => rw [hd] at h; cases h
  | some m1 =>
    rw [hd] at h
    dsimp only at h
    cases hc : SIRNode.convalesce P m1 a r with
    | none => rw [hc] at h; cases h
    | some t =>
      obtain ⟨a1, r1⟩ := t
      rw [hc] at h
      cases h
      obtain ⟨hst, hx, hy⟩ := convalesce_spec hc
      rcases hst with hst | ⟨hsrc, hrec⟩
      · exact ⟨hst ▸ Relation.ReflTransGen.refl, fun hr => hst ▸ hr, hx, hy⟩
      · refine ⟨?_, ?_, hx, hy⟩
        · rcases hsrc with h1 | h1
          · rw [h1, hrec]
            exact Relation.ReflTransGen.single StatusEdge.inf_rec
          · rw [h1, hrec]
            exact Relation.ReflTransGen.single StatusEdge.quar_rec
        · intro hr
          rcases hsrc with h1 | h1 <;> rw [h1] at hr <;> cases hr

/-- The per-tick relation between an agent before and after: the status
moves along the allowed graph only, and RECOVERED is terminal. -/
def statusStepRel (a a' : SIRNode) : Prop :=
  Relation.ReflTransGen StatusEdge a.status a'.status ∧
  (a.status = SIRStatus.RECOVERED → a'.status = SIRStatus.RECOVERED)

theorem statusStepRel_trans {a b c : SIRNode} (h1 : statusStepRel a b)
    (h2 : statusStepRel b c) : statusStepRel a c :=
  ⟨h1.1.trans h2.1, fun hr => h2.2 (h1.2 hr)⟩

theorem phase2Step_spec {P : Params} {a : SIRNode} {m : SIRMap} {r : RNG}
    {out : SIRNode × SIRMap × RNG} (h : phase2Step P a m r = some out) :
    statusStepRel a out.1 ∧
    ((out.1.x = a.x ∧ out.1.y = a.y) ∨
      m.can_enter out.1.x out.1.y 1 = true ∨
      (∃ rest, a.path = (out.1.x.toNat, out.1.y.toNat) :: rest ∧
        0 ≤ out.1.x ∧ 0 ≤ out.1.y)) := by
  unfold phase2Step at h
  cases hm : SIRNode.move P m a r with
  | none => rw [hm] at h; cases h
  | some t1 =>
    obtain ⟨a1, r1⟩ := t1
    rw [hm] at h
    dsimp only at h
    cases he : SIRNode.droplet_expose m a1 r1 with
    | none => rw [he] at h; cases h
    | some t2 =>
      obtain ⟨a2, r2⟩ := t2
      rw [he] at h
      cases h
      obtain ⟨hst1, hpos1⟩ := move_spec hm
      obtain ⟨hst2, hx2, hy2, hpath2⟩ := droplet_expose_spec he
      constructor
      · constructor
        · have e1 : Relation.ReflTransGen StatusEdge a.status a1.status := by
            rcases hst1 with h1 | ⟨h1, h2⟩
            · rw [h1]
            · rw [h1, h2]
              exact Relation.ReflTransGen.single StatusEdge.inf_quar
          have e2 : Relation.ReflTransGen StatusEdge a1.status a2.status := by
            rcases hst2 with h1 | ⟨h1, h2⟩
            · rw [h1]
            · rw [h1, h2]
              exact Relation.ReflTransGen.single StatusEdge.sus_inf
          exact e1.trans e2
        · intro hr
          have h1 : a1.status = SIRStatus.RECOVERED := by
            rcases hst1 with h1 | ⟨h1, _⟩
            · rw [h1, hr]
            · rw [h1] at hr; cases hr
          rcases hst2 with h2 | ⟨h2, _⟩
          · rw [h2, h1]
          · rw [h2] at h1; cases h1
      · rw [hx2, hy2]
        exact hpos1

theorem phase1_forall2 {P : Params} {s s1 : SimState} (h : phase1 P s = some s1) :
    List.Forall₂ (fun a a' => statusStepRel a a' ∧ a'.x = a.x ∧ a'.y = a.y)
      s.population s1.population := by
  unfold phase1 at h
  cases hs : sweep (phase1Step P) s.population s.sirMap s.rng with
  | none => rw [hs] at h; cases h
  | some out =>
    rw [hs] at h
    simp only [Option.map_some', Option.some.injEq] at h
    have := sweep_forall2 (V := fun _ _ => True)
      (R := fun a a' => statusStepRel a a' ∧ a'.x = a.x ∧ a'.y = a.y)
      (f := phase1Step P) ?hf s.population s.sirMap s.rng out trivial hs
    · rw [← h]
      exact this.1
    case hf =>
      intro a m r o _ ho
      obtain ⟨h1, h2, h3, h4⟩ := phase1Step_spec ho
      exact ⟨⟨⟨h1, h2⟩, h3, h4⟩, trivial⟩

theorem phase2Step_map {P : Params} {a : SIRNode} {m : SIRMap} {r : RNG}
    {out : SIRNode × SIRMap × RNG} (h : phase2Step P a m r = some out) :
    out.2.1 = m := by
  unfold phase2Step at h
  cases hmv : SIRNode.move P m a r with
  | none => rw [hmv] at h; cases h
  | some u1 =>
    obtain ⟨b1, q1⟩ := u1
    rw [hmv] at h
    dsimp only at h
    cases hex : SIRNode.droplet_expose m b1 q1 with
    | none => rw [hex] at h; cases h
    | some u2 =>
      obtain ⟨b2, q2⟩ := u2
      rw [hex] at h
      cases h
      rfl

/-- The second sweep of model_step leaves the map untouched: move and
droplet_expose only read it. -/
theorem sweep_phase2_map {P : Params} :
    ∀ (l : List SIRNode) (m : SIRMap) (r : RNG) (out : List SIRNode × SIRMap × RNG),
      sweep (phase2Step P) l m r = some out → out.2.1 = m := by
  intro l
  induction l with
  | nil => intro m r out h; unfold sweep at h; cases h; rfl
  | cons a rest ih =>
    intro m r out h
    unfold sweep at h
    cases h1 : phase2Step P a m r with
    | none => rw [h1] at h; cases h
    | some t1 =>
      obtain ⟨a1, m1, r1⟩ := t1
      rw [h1] at h
      dsimp only at h
      cases h2 : sweep (phase2Step P) rest m1 r1 with
      | none => rw [h2] at h; cases h
      | some t2 =>
        obtain ⟨rest1, m2, r2⟩ := t2
        rw [h2] at h
        dsimp only at h
        cases h
        have hm1 : m1 = m := phase2Step_map h1
        exact hm1 ▸ ih m1 r1 (rest1, m2, r2) h2

theorem phase2_forall2 {P : Params} {s s1 : SimState} (h : phase2 P s = some s1) :
    List.Forall₂ (fun a a' => statusStepRel a a' ∧
      ((a'.x = a.x ∧ a'.y = a.y) ∨
        s.sirMap.can_enter a'.x a'.y 1 = true ∨
        (∃ rest, a.path = (a'.x.toNat, a'.y.toNat) :: rest ∧ 0 ≤ a'.x ∧ 0 ≤ a'.y)))
      s.population s1.population := by
  unfold phase2 at h
  cases hs : sweep (phase2Step P) s.population s.sirMap s.rng with
  | none => rw [hs] at h; cases h
  | some out =>
    rw [hs] at h
    simp only [Option.map_some', Option.some.injEq] at h
    have := sweep_forall2 (V := fun m _ => m = s.sirMap)
      (R := fun a a' => statusStepRel a a' ∧
        ((a'.x = a.x ∧ a'.y = a.y) ∨
          s.sirMap.can_enter a'.x a'.y 1 = true ∨
          (∃ rest, a.path = (a'.x.toNat, a'.y.toNat) :: rest ∧ 0 ≤ a'.x ∧ 0 ≤ a'.y)))
      (f := phase2Step P) ?hf s.population s.sirMap s.rng out rfl hs
    · rw [← h]
      exact this.1
    case hf =>
      intro a m r o hv ho
      obtain ⟨h1, h2⟩ := phase2Step_spec ho
      refine ⟨⟨h1, ?_⟩, ?_⟩
      · rw [← hv]
        exact h2
      · rw [phase2Step_map ho, hv]

/-- Statuses across one full model_step move only along the allowed
graph, and RECOVERED stays put. -/
theorem model_step_statuses {P : Params} {s s' : SimState}
    (h : model_step P s = some s') :
    List.Forall₂ statusStepRel s.population s'.population := by
  unfold model_step at h
  cases h1 : phase1 P s with
  | none => rw [h1] at h; cases h
  | some s1 =>
    rw [h1] at h
    dsimp only at h
    cases h2 : phase2 P s1 with
    | none => rw [h2] at h; cases h
    | some s2 =>
      rw [h2] at h
      cases h
      have f1 := phase1_forall2 h1
      have f2 := phase2_forall2 h2
      exact forall2_trans (fun a b c hab hbc =>
        statusStepRel_trans hab.1 hbc.1) f1 f2

/-- C6: across every sequence of model_step calls, every agent's status
moves only along SUSCEPTIBLE to INFECTED, INFECTED to QUARANTINED,
INFECTED to RECOVERED and QUARANTINED to RECOVERED, and an agent that is
RECOVERED never transitions again. -/
theorem C6_status_transitions (P : Params) (n : ℕ) (s s' : SimState)
    (h : stepN P n s = some s') :
    List.Forall₂
      (fun a a' => Relation.ReflTransGen StatusEdge a.status a'.status ∧
        (a.status = SIRStatus.RECOVERED → a'.status = SIRStatus.RECOVERED))
      s.population s'.population := by
  induction n generalizing s with
  | zero =>
    unfold stepN at h
    cases h
    exact List.forall₂_same.2 fun a _ => ⟨Relation.ReflTransGen.refl, fun hr => hr⟩
  | succ n ih =>
    unfold stepN at h
    cases h1 : model_step P s with
    | none => rw [h1] at h; cases h
    | some s1 =>
      rw [h1] at h
      dsimp only at h
      have hrec : List.Forall₂ statusStepRel s1.population s'.population := by
        exact ih s1 h
      have hcomp : List.Forall₂ statusStepRel s.population s'.population :=
        forall2_trans (R := statusStepRel) (S := statusStepRel) (T := statusStepRel)
          (fun a b c hab hbc => statusStepRel_trans hab hbc)
          (model_step_statuses h1) hrec
      exact hcomp

/-- A random source whose unit draw is always three fifths, used by the
concrete single-agent run below. -/
def demoRNG : RNG :=
  { floats := fun _ => 3/5, fi := 0, ints := fun _ => 0, ii := 0,
    npints := fun _ => 0, ni := 0, npfloats := fun _ => 0, nfi := 0 }

/-- The single-agent demonstration state before a tick. -/
def demoState0 : SimState :=
  { sirMap := demoMap, population := [demoAgent], rng := demoRNG }

/-- The single-agent demonstration state after one tick: the idle roll
chain leaves the agent in place with only random cursors advanced, and
the map ventilated. -/
def demoState1 : SimState :=
  { sirMap := demoMap.ventilate, population := [demoAgent],
    rng := { demoRNG with fi := 3, ii := 1 } }

/-- Witness for C6: one concrete tick of a one-agent model. -/
theorem C6_witness :
    List.Forall₂
      (fun a a' => Relation.ReflTransGen StatusEdge a.status a'.status ∧
        (a.status = SIRStatus.RECOVERED → a'.status = SIRStatus.RECOVERED))
      demoState0.population demoState1.population :=
  C6_status_transitions demoParams 1 demoState0 demoState1
    (by with_unfolding_all rfl)

/-! ## Claim C7: phase order inside a tick -/

/-- All set bits of the first byte occur in the second. -/
def Subbyte (a b : ℕ) : Prop := a ||| b = b

theorem subbyte_refl (a : ℕ) : Subbyte a a := by
  unfold Subbyte
  simp

theorem subbyte_trans {a b c : ℕ} (h1 : Subbyte a b) (h2 : Subbyte b c) :
    Subbyte a c := by
  unfold Subbyte at *
  rw [← h2, ← Nat.lor_assoc, h1]

theorem subbyte_lor_left (a b : ℕ) : Subbyte a (a ||| b) := by
  unfold Subbyte
  rw [← Nat.lor_assoc]
  simp

theorem subbyte_lor_right (a b : ℕ) : Subbyte b (a ||| b) := by
  unfold Subbyte
  rw [Nat.lor_comm b (a ||| b), Nat.lor_assoc]
  simp

theorem cellIndex_congr {m1 m : SIRMap} (hh : m1.height = m.height)
    (hw : m1.width = m.width) (x y : ℤ) : m1.cellIndex x y = m.cellIndex x y := by
  unfold SIRMap.cellIndex
  rw [hh, hw]

theorem phase1Step_miasma {P : Params} {a : SIRNode} {m : SIRMap} {r : RNG}
    {out : SIRNode × SIRMap × RNG} (h : phase1Step P a m r = some out) :
    out.2.1.height = m.height ∧ out.2.1.width = m.width ∧
    (∀ q, Subbyte (m.miasma q) (out.2.1.miasma q)) ∧
    (a.status = SIRStatus.INFECTED →
      ∃ p, m.cellIndex a.x a.y = some p ∧ Subbyte 127 (out.2.1.miasma p)) := by
  unfold phase1Step at h
  cases hd : SIRNode.droplet_spread m a with
  | none => rw [hd] at h; cases h
  | some m1 =>
    rw [hd] at h
    dsimp only at h
    cases hc : SIRNode.convalesce P m1 a r with
    | none => rw [hc] at h; cases h
    | some t =>
      obtain ⟨a1, r1⟩ := t
      rw [hc] at h
      cases h
      unfold SIRNode.droplet_spread at hd
      by_cases hinf : a.is_contagious = true
      · rw [if_pos hinf] at hd
        unfold SIRMap.contaminate at hd
        cases hidx : m.cellIndex a.x a.y with
        | none => rw [hidx] at hd; cases hd
        | some p =>
          rw [hidx] at hd
          simp only [Option.map_some', Option.some.injEq] at hd
          rw [← hd]
          refine ⟨rfl, rfl, ?_, ?_⟩
          · intro q
            dsimp only
            by_cases hq : q = p
            · rw [if_pos hq]
              exact subbyte_lor_left _ _
            · rw [if_neg hq]
              exact subbyte_refl _
          · intro _
            refine ⟨p, rfl, ?_⟩
            dsimp only
            rw [if_pos rfl]
            exact subbyte_lor_right _ _
      · rw [if_neg hinf] at hd
        cases hd
        refine ⟨rfl, rfl, fun q => subbyte_refl _, fun hst => ?_⟩
        exfalso
        apply hinf
        unfold SIRNode.is_contagious
        rw [hst]
        rfl

/-- After the first sweep, the contamination laid down by every agent that
was INFECTED at tick start is present at that agent's cell, and no byte
of the field ever loses bits during the sweep. -/
theorem sweep_phase1_miasma {P : Params} :
    ∀ (l : List SIRNode) (m : SIRMap) (r : RNG) (out : List SIRNode × SIRMap × RNG),
      sweep (phase1Step P) l m r = some out →
      out.2.1.height = m.height ∧ out.2.1.width = m.width ∧
      (∀ q, Subbyte (m.miasma q) (out.2.1.miasma q)) ∧
      (∀ a ∈ l, a.status = SIRStatus.INFECTED →
        ∃ p, m.cellIndex a.x a.y = some p ∧ Subbyte 127 (out.2.1.miasma p)) := by
  intro l
  induction l with
  | nil =>
    intro m r out h
    unfold sweep at h
    cases h
    exact ⟨rfl, rfl, fun q => subbyte_refl _, fun a ha => absurd ha (List.not_mem_nil a)⟩
  | cons a rest ih =>
    intro m r out h
    unfold sweep at h
    cases h1 : phase1Step P a m r with
    | none => rw [h1] at h; cases h
    | some t1 =>
      obtain ⟨a1, m1, r1⟩ := t1
      rw [h1] at h
      dsimp only at h
      cases h2 : sweep (phase1Step P) rest m1 r1 with
      | none => rw [h2] at h; cases h
      | some t2 =>
        obtain ⟨rest1, m2, r2⟩ := t2
        rw [h2] at h
        dsimp only at h
        cases h
        obtain ⟨hh1, hw1, hsub1, hcontam1⟩ := phase1Step_miasma h1
        obtain ⟨hh2, hw2, hsub2, hcontam2⟩ := ih m1 r1 (rest1, m2, r2) h2
        refine ⟨hh2.trans hh1, hw2.trans hw1, ?_, ?_⟩
        · intro q
          exact subbyte_trans (hsub1 q) (hsub2 q)
        · intro b hb hbst
          rcases List.mem_cons.mp hb with hba | hbr
          · subst hba
            obtain ⟨p, hp, hsubp⟩ := hcontam1 hbst
            exact ⟨p, hp, subbyte_trans hsubp (hsub2 p)⟩
          · obtain ⟨p, hp, hsubp⟩ := hcontam2 b hbr hbst
            refine ⟨p, ?_, hsubp⟩
            rw [← cellIndex_congr hh1 hw1 b.x b.y]
            exact hp

/-- C7: model_step is exactly the spread-and-convalesce sweep, then the
move-and-expose sweep, then one ventilation; the second sweep never
writes the miasma, and after the first sweep the cell of every agent
contagious at tick start already carries the full concentration bits, so
every droplet_expose read of the tick sees the contamination of every
tick-start-contagious agent. -/
theorem C7_phase_order (P : Params) (s s' : SimState)
    (h : model_step P s = some s') :
    ∃ s1 s2, phase1 P s = some s1 ∧ phase2 P s1 = some s2 ∧
      s' = { s2 with sirMap := s2.sirMap.ventilate } ∧
      s2.sirMap = s1.sirMap ∧
      (∀ a ∈ s.population, a.status = SIRStatus.INFECTED →
        ∃ p, s.sirMap.cellIndex a.x a.y = some p ∧
          Subbyte 127 (s1.sirMap.miasma p)) := by
  unfold model_step at h
  cases h1 : phase1 P s with
  | none => rw [h1] at h; cases h
  | some s1 =>
    rw [h1] at h
    dsimp only at h
    cases h2 : phase2 P s1 with
    | none => rw [h2] at h; cases h
    | some s2 =>
      rw [h2] at h
      cases h
      refine ⟨s1, s2, rfl, h2, rfl, ?_, ?_⟩
      · unfold phase2 at h2
        cases hs : sweep (phase2Step P) s1.population s1.sirMap s1.rng with
        | none => rw [hs] at h2; cases h2
        | some out =>
          rw [hs] at h2
          simp only [Option.map_some', Option.some.injEq] at h2
          rw [← h2]
          exact sweep_phase2_map _ _ _ _ hs
      · unfold phase1 at h1
        cases hs : sweep (phase1Step P) s.population s.sirMap s.rng with
        | none => rw [hs] at h1; cases h1
        | some out =>
          rw [hs] at h1
          simp only [Option.map_some', Option.some.injEq] at h1
          obtain ⟨_, _, _, hcontam⟩ := sweep_phase1_miasma s.population s.sirMap s.rng out hs
          intro a ha hst
          obtain ⟨p, hp, hsub⟩ := hcontam a ha hst
          refine ⟨p, hp, ?_⟩
          rw [← h1]
          exact hsub

/-! ## Claim C2: positions after a tick -/

theorem phase1Step_img {P : Params} {a : SIRNode} {m : SIRMap} {r : RNG}
    {out : SIRNode × SIRMap × RNG} (h : phase1Step P a m r = some out) :
    out.2.1.img = m.img := by
  unfold phase1Step at h
  cases hd : SIRNode.droplet_spread m a with
  | none => rw [hd] at h; cases h
  | some m1 =>
    rw [hd] at h
    dsimp only at h
    cases hc : SIRNode.convalesce P m1 a r with
    | none => rw [hc] at h; cases h
    | some t =>
      obtain ⟨a1, r1⟩ := t
      rw [hc] at h
      cases h
      unfold SIRNode.droplet_spread at hd
      by_cases hinf : a.is_contagious = true
      · rw [if_pos hinf] at hd
        unfold SIRMap.contaminate at hd
        cases hidx : m.cellIndex a.x a.y with
        | none => rw [hidx] at hd; cases hd
        | some p =>
          rw [hidx] at hd
          simp only [Option.map_some', Option.some.injEq] at hd
          rw [← hd]
      · rw [if_neg hinf] at hd
        cases hd
        rfl

theorem sweep_phase1_img {P : Params} :
    ∀ (l : List SIRNode) (m : SIRMap) (r : RNG) (out : List SIRNode × SIRMap × RNG),
      sweep (phase1Step P) l m r = some out → out.2.1.img = m.img := by
  intro l
  induction l with
  | nil => intro m r out h; unfold sweep at h; cases h; rfl
  | cons a rest ih =>
    intro m r out h
    unfold sweep at h
    cases h1 : phase1Step P a m r with
    | none => rw [h1] at h; cases h
    | some t1 =>
      obtain ⟨a1, m1, r1⟩ := t1
      rw [h1] at h
      dsimp only at h
      cases h2 : sweep (phase1Step P) rest m1 r1 with
      | none => rw [h2] at h; cases h
      | some t2 =>
        obtain ⟨rest1, m2, r2⟩ := t2
        rw [h2] at h
        dsimp only at h
        cases h
        exact (ih m1 r1 (rest1, m2, r2) h2).trans (phase1Step_img h1)

theorem can_enter_congr {m1 m2 : SIRMap} (hh : m1.height = m2.height)
    (hw : m1.width = m2.width) (hi : m1.img = m2.img) (x y : ℤ) (role : ℕ) :
    m1.can_enter x y role = m2.can_enter x y role := by
  unfold SIRMap.can_enter SIRMap.valid SIRMap.quarantine SIRMap.walls SIRMap.isPixelType
  rw [hh, hw, hi]

/-- C2 amended: after model_step, every agent's position satisfies
can_enter, or is unchanged from the start of the movement sweep, or is
the next queued cell of the agent's path — a pathfound cell that may lie
inside a wall (wall edges carry the finite cost width*height, so a route
blocked by walls passes through wall cells) or inside the quarantine
zone (for an agent routed there). -/
theorem C2_amended_position (P : Params) (s s' : SimState)
    (h : model_step P s = some s') :
    ∃ s1, phase1 P s = some s1 ∧
      List.Forall₂ (fun a1 a' =>
        s'.sirMap.can_enter a'.x a'.y 1 = true ∨
        (a'.x = a1.x ∧ a'.y = a1.y) ∨
        (∃ rest, a1.path = (a'.x.toNat, a'.y.toNat) :: rest ∧ 0 ≤ a'.x ∧ 0 ≤ a'.y))
        s1.population s'.population := by
  unfold model_step at h
  cases h1 : phase1 P s with
  | none => rw [h1] at h; cases h
  | some s1 =>
    rw [h1] at h
    dsimp only at h
    cases h2 : phase2 P s1 with
    | none => rw [h2] at h; cases h
    | some s2 =>
      rw [h2] at h
      cases h
      refine ⟨s1, rfl, ?_⟩
      have hmap : s2.sirMap = s1.sirMap := by
        unfold phase2 at h2
        cases hs : sweep (phase2Step P) s1.population s1.sirMap s1.rng with
        | none => rw [hs] at h2; cases h2
        | some out =>
          rw [hs] at h2
          simp only [Option.map_some', Option.some.injEq] at h2
          rw [← h2]
          exact sweep_phase2_map _ _ _ _ hs
      have hce : ∀ x y, SIRMap.can_enter (SIRMap.ventilate s2.sirMap) x y 1 =
          s1.sirMap.can_enter x y 1 := by
        intro x y
        exact can_enter_congr (by rw [hmap]; rfl) (by rw [hmap]; rfl)
          (by rw [hmap]; rfl) x y 1
      have hf2 := phase2_forall2 h2
      refine List.Forall₂.imp ?_ hf2
      intro a1 a' hr
      obtain ⟨_, hpos⟩ := hr
      rcases hpos with h3 | h3 | h3
      · exact Or.inr (Or.inl h3)
      · refine Or.inl ?_
        show SIRMap.can_enter (SIRMap.ventilate s2.sirMap) a'.x a'.y 1 = true
        rw [hce a'.x a'.y]
        exact h3
      · exact Or.inr (Or.inr h3)

/-- Witness for the amended C2: the concrete one-agent tick. -/
theorem C2_witness :
    ∃ s1, phase1 demoParams demoState0 = some s1 ∧
      List.Forall₂ (fun a1 a' =>
        demoState1.sirMap.can_enter a'.x a'.y 1 = true ∨
        (a'.x = a1.x ∧ a'.y = a1.y) ∨
        (∃ rest, a1.path = (a'.x.toNat, a'.y.toNat) :: rest ∧ 0 ≤ a'.x ∧ 0 ≤ a'.y))
        s1.population demoState1.population :=
  C2_amended_position demoParams demoState0 demoState1 (by with_unfolding_all rfl)

/-- The 1 by 5 corridor image: two start cells, a separating wall cell,
two target cells. -/
def c2Img : Node → RGB := fun p =>
  if p.2 ≤ 1 then Terrain.START else if p.2 = 2 then Terrain.WALL else Terrain.TARGET

/-- The Euclidean heuristic of pathing.dist towards (0, 3) on the
corridor row, where every distance is an exact integer. -/
def c2H : Node → ℚ := fun p =>
  if p.2 = 0 then 3 else if p.2 = 1 then 2 else if p.2 = 2 then 1
  else if p.2 = 3 then 0 else 1

/-- The A-star priority ncost + heuristic for the corridor run. -/
def c2Pri : ℕ → Node → ℚ := fun n p => Rat.ofInt (Int.ofNat n) + c2H p

/-- Parameters of the corridor run (default SIRModel rates). -/
def c2Params : Params :=
  { pri := c2Pri, fuel := 30, recovery_rate := 1/50, attack_rate := 4/5 }

/-- Streams of the corridor run: every urgency roll passes (1/10), every
placement draw is the first cell. -/
def c2RNG : RNG :=
  { floats := fun _ => 1/10, fi := 0, ints := fun _ => 0, ii := 0,
    npints := fun _ => 0, ni := 0, npfloats := fun _ => 0, nfi := 0 }

/-- The corridor model after three ticks: one agent placed at (0,0) with
the initial path [(0,0), (0,1), (0,2), (0,3)] through the wall, stepped
three times. -/
def c2Run : Option SimState :=
  SIRModel.make c2Params 1 5 c2Img 1 0 c2RNG >>= stepN c2Params 3

/-- C2 counterexample: on the corridor map the model's single agent ends
its third tick standing on the wall cell (0, 2) while never having been
routed to quarantine: the run succeeds, the agent is not QUARANTINED, and
can_enter at its position is false. -/
theorem C2_counterexample :
    RNG.Valid c2RNG ∧
    (c2Run.map fun s => s.population.map fun a =>
      (a.status == SIRStatus.QUARANTINED, s.sirMap.can_enter a.x a.y 1)) =
      some [(false, false)] := by
  constructor
  · exact ⟨fun n => by norm_num [c2RNG], fun n => by norm_num [c2RNG]⟩
  · with_unfolding_all rfl

/-- Witness for C7: the concrete one-agent tick. -/
theorem C7_witness :
    ∃ s1 s2, phase1 demoParams demoState0 = some s1 ∧
      phase2 demoParams s1 = some s2 ∧
      demoState1 = { s2 with sirMap := s2.sirMap.ventilate } ∧
      s2.sirMap = s1.sirMap ∧
      (∀ a ∈ demoState0.population, a.status = SIRStatus.INFECTED →
        ∃ p, demoState0.sirMap.cellIndex a.x a.y = some p ∧
          Subbyte 127 (s1.sirMap.miasma p)) :=
  C7_phase_order demoParams demoState0 demoState1 (by with_unfolding_all rfl)

/-! ## Claim C8: the open 50 by 50 scenario

The helper lemmas first establish that the unit-interval stream
functions are never replaced during a run (only the cursors advance), so
stream validity is an invariant, and that with recovery rate zero no
agent ever reaches RECOVERED. -/

/-- The unit-interval streams of two random states coincide. -/
def sameRandomness (r r' : RNG) : Prop :=
  r'.floats = r.floats ∧ r'.npfloats = r.npfloats

theorem sameRandomness_trans {a b c : RNG} (h1 : sameRandomness a b)
    (h2 : sameRandomness b c) : sameRandomness a c :=
  ⟨h2.1.trans h1.1, h2.2.trans h1.2⟩

theorem RNG.Valid.of_same {r r' : RNG} (hv : RNG.Valid r)
    (hs : sameRandomness r r') : RNG.Valid r' := by
  constructor
  · intro n; rw [hs.1]; exact hv.1 n
  · intro n; rw [hs.2]; exact hv.2 n

theorem random_idx_rand {height width : ℕ} {mask : Node → Bool} {rng : RNG}
    {out : Node × RNG} (h : random_idx height width mask rng = some out) :
    sameRandomness rng out.2 := by
  unfold random_idx at h
  by_cases hlen : (argwhere height width mask).length ≤ 1
  · rw [if_pos hlen] at h; cases h
  · rw [if_neg hlen] at h
    cases h
    exact ⟨rfl, rfl⟩

theorem random_move_rand (m : SIRMap) (a : SIRNode) (rng : RNG) :
    sameRandomness rng (SIRNode.random_move m a rng).2 := by
  unfold SIRNode.random_move
  dsimp only
  split_ifs <;> exact ⟨rfl, rfl⟩

theorem new_task_rand {P : Params} {m : SIRMap} {a : SIRNode} {rng : RNG}
    {out : SIRNode × RNG} (h : SIRNode.new_task P m a rng = some out) :
    sameRandomness rng out.2 := by
  unfold SIRNode.new_task at h
  dsimp only at h
  have base : sameRandomness rng (rng.nextFloat).2 := ⟨rfl, rfl⟩
  split_ifs at h
  case _ =>
    cases hidx : random_idx m.height m.width m.target (rng.nextFloat).2 with
    | none => rw [hidx] at h; cases h
    | some t =>
      rw [hidx] at h
      dsimp only at h
      cases hpf : a.pathfindTo P m t.1 with
      | none => rw [hpf] at h; cases h
      | some a2 =>
        rw [hpf] at h
        simp only [Option.map_some', Option.some.injEq] at h
        rw [← h]
        exact sameRandomness_trans base (random_idx_rand (by rw [hidx]))
  case _ =>
    cases hidx : random_idx m.height m.width m.start (rng.nextFloat).2 with
    | none => rw [hidx] at h; cases h
    | some t =>
      rw [hidx] at h
      dsimp only at h
      cases hpf : a.pathfindTo P m t.1 with
      | none => rw [hpf] at h; cases h
      | some a2 =>
        rw [hpf] at h
        simp only [Option.map_some', Option.some.injEq] at h
        rw [← h]
        exact sameRandomness_trans base (random_idx_rand (by rw [hidx]))
  case _ =>
    cases hidx : random_idx m.height m.width m.valid (rng.nextFloat).2 with
    | none => rw [hidx] at h; cases h
    | some t =>
      rw [hidx] at h
      dsimp only at h
      cases hpf : a.pathfindTo P m t.1 with
      | none => rw [hpf] at h; cases h
      | some a2 =>
        rw [hpf] at h
        simp only [Option.map_some', Option.some.injEq] at h
        rw [← h]
        exact sameRandomness_trans base (random_idx_rand (by rw [hidx]))
  case _ =>
    cases h
    exact sameRandomness_trans base (random_move_rand m a (rng.nextFloat).2)

theorem moveAct_rand {P : Params} {m : SIRMap} {a : SIRNode} {rng : RNG}
    {out : SIRNode × RNG} (h : SIRNode.moveAct P m a rng = some out) :
    sameRandomness rng out.2 := by
  unfold SIRNode.moveAct at h
  cases hp : a.path with
  | nil => rw [hp] at h; exact new_task_rand h
  | cons p rest => rw [hp] at h; cases h; exact ⟨rfl, rfl⟩

theorem move_rand {P : Params} {m : SIRMap} {a : SIRNode} {rng : RNG}
    {out : SIRNode × RNG} (h : SIRNode.move P m a rng = some out) :
    sameRandomness rng out.2 := by
  unfold SIRNode.move at h
  by_cases hq : a.is_quarantined = true
  · rw [if_pos hq] at h
    cases hp : a.path with
    | nil => rw [hp] at h; cases h; exact ⟨rfl, rfl⟩
    | cons p rest => rw [hp] at h; cases h; exact ⟨rfl, rfl⟩
  · rw [if_neg hq] at h
    have base1 : sameRandomness rng (rng.nextFloat).2 := ⟨rfl, rfl⟩
    have base2 : sameRandomness rng ((rng.nextFloat).2.nextFloat).2 := ⟨rfl, rfl⟩
    by_cases hu : (rng.nextFloat).1 ≤ a.urgency
    · rw [if_pos hu] at h
      by_cases hcont : a.is_contagious = true
      · rw [if_pos hcont] at h
        dsimp only at h
        by_cases hroll : ((rng.nextFloat).2.nextFloat).1 < 1/20
        · rw [if_pos hroll] at h
          cases hidx : random_idx m.height m.width m.quarantine
              ((rng.nextFloat).2.nextFloat).2 with
          | none => rw [hidx] at h; cases h
          | some t =>
            rw [hidx] at h
            dsimp only at h
            cases hpf : a.pathfindTo P m t.1 with
            | none => rw [hpf] at h; cases h
            | some a2 =>
              rw [hpf] at h
              simp only [Option.map_some', Option.some.injEq] at h
              rw [← h]
              exact sameRandomness_trans base2 (random_idx_rand (by rw [hidx]))
        · rw [if_neg hroll] at h
          exact sameRandomness_trans base2 (moveAct_rand h)
      · rw [if_neg hcont] at h
        exact sameRandomness_trans base1 (moveAct_rand h)
    · rw [if_neg hu] at h
      cases h
      exact ⟨rfl, rfl⟩

theorem droplet_expose_rand {m : SIRMap} {a : SIRNode} {rng : RNG}
    {out : SIRNode × RNG} (h : SIRNode.droplet_expose m a rng = some out) :
    sameRandomness rng out.2 := by
  unfold SIRNode.droplet_expose at h
  by_cases hs : a.is_susceptible = true
  · rw [if_pos hs] at h
    cases hv : m.virus_level a.x a.y with
    | none => rw [hv] at h; cases h
    | some v =>
      rw [hv] at h
      dsimp only at h
      by_cases hlt : (rng.nextInt256).1 < v
      · rw [if_pos hlt] at h; cases h; exact ⟨rfl, rfl⟩
      · rw [if_neg hlt] at h; cases h; exact ⟨rfl, rfl⟩
  · rw [if_neg hs] at h; cases h; exact ⟨rfl, rfl⟩

/-- With recovery rate zero and in-range unit draws, convalesce is the
identity: the roll r < 0 never succeeds. -/
theorem convalesce_zero {P : Params} {m : SIRMap} {a : SIRNode} {rng : RNG}
    {out : SIRNode × RNG} (hrec : P.recovery_rate = 0)
    (hv : 0 ≤ rng.floats rng.fi) (h : SIRNode.convalesce P m a rng = some out) :
    out.1 = a ∧ sameRandomness rng out.2 := by
  unfold SIRNode.convalesce at h
  by_cases hc : (a.is_contagious || a.is_quarantined) = true
  · rw [if_pos hc] at h
    dsimp only at h
    rw [if_neg (by rw [hrec]; exact not_lt.2 hv)] at h
    cases h
    exact ⟨rfl, rfl, rfl⟩
  · rw [if_neg hc] at h
    cases h
    exact ⟨rfl, rfl, rfl⟩

theorem phase1Step_zero {P : Params} {a : SIRNode} {m : SIRMap} {r : RNG}
    {out : SIRNode × SIRMap × RNG} (hrec : P.recovery_rate = 0)
    (hv : RNG.Valid r) (h : phase1Step P a m r = some out) :
    out.1 = a ∧ RNG.Valid out.2.2 := by
  unfold phase1Step at h
  cases hd : SIRNode.droplet_spread m a with
  | none => rw [hd] at h; cases h
  | some m1 =>
    rw [hd] at h
    dsimp only at h
    cases hc : SIRNode.convalesce P m1 a r with
    | none => rw [hc] at h; cases h
    | some t =>
      obtain ⟨a1, r1⟩ := t
      rw [hc] at h
      cases h
      obtain ⟨ha, hs⟩ := convalesce_zero hrec (hv.1 r.fi).1 hc
      exact ⟨ha, hv.of_same hs⟩

theorem phase2Step_norec {P : Params} {a : SIRNode} {m : SIRMap} {r : RNG}
    {out : SIRNode × SIRMap × RNG} (hv : RNG.Valid r)
    (h : phase2Step P a m r = some out) :
    (out.1.status = SIRStatus.RECOVERED → a.status = SIRStatus.RECOVERED) ∧
    RNG.Valid out.2.2 := by
  unfold phase2Step at h
  cases hm : SIRNode.move P m a r with
  | none => rw [hm] at h; cases h
  | some t1 =>
    obtain ⟨a1, r1⟩ := t1
    rw [hm] at h
    dsimp only at h
    cases he : SIRNode.droplet_expose m a1 r1 with
    | none => rw [he] at h; cases h
    | some t2 =>
      obtain ⟨a2, r2⟩ := t2
      rw [he] at h
      cases h
      obtain ⟨hst1, _⟩ := move_spec hm
      obtain ⟨hst2, _⟩ := droplet_expose_spec he
      constructor
      · intro hr
        have h1 : a1.status = SIRStatus.RECOVERED := by
          rcases hst2 with h2 | ⟨h2, h3⟩
          · rw [← h2]; exact hr
          · rw [h3] at hr; cases hr
        rcases hst1 with h2 | ⟨h2, h3⟩
        · rw [← h2]; exact h1
        · rw [h3] at h1; cases h1
      · exact (hv.of_same (move_rand hm)).of_same (droplet_expose_rand he)

/-- One model_step with recovery rate zero: statuses still move along the
allowed graph, nobody reaches RECOVERED, and stream validity persists. -/
theorem model_step_zero {P : Params} {s s' : SimState}
    (hrec : P.recovery_rate = 0) (hv : RNG.Valid s.rng)
    (h : model_step P s = some s') :
    List.Forall₂ (fun a a' => statusStepRel a a' ∧
      (a'.status = SIRStatus.RECOVERED → a.status = SIRStatus.RECOVERED))
      s.population s'.population ∧ RNG.Valid s'.rng := by
  unfold model_step at h
  cases h1 : phase1 P s with
  | none => rw [h1] at h; cases h
  | some s1 =>
    rw [h1] at h
    dsimp only at h
    cases h2 : phase2 P s1 with
    | none => rw [h2] at h; cases h
    | some s2 =>
      rw [h2] at h
      cases h
      have p1 : List.Forall₂ (fun a a' => a' = a) s.population s1.population ∧
          RNG.Valid s1.rng := by
        unfold phase1 at h1
        cases hs : sweep (phase1Step P) s.population s.sirMap s.rng with
        | none => rw [hs] at h1; cases h1
        | some out =>
          rw [hs] at h1
          simp only [Option.map_some', Option.some.injEq] at h1
          have := sweep_forall2 (V := fun _ r => RNG.Valid r)
            (R := fun a a' => a' = a) (f := phase1Step P)
            (fun a m r o hvr ho =>
              ⟨(phase1Step_zero hrec hvr ho).1, (phase1Step_zero hrec hvr ho).2⟩)
            s.population s.sirMap s.rng out hv hs
          rw [← h1]
          exact this
      have p2 : List.Forall₂ (fun a a' => statusStepRel a a' ∧
          (a'.status = SIRStatus.RECOVERED → a.status = SIRStatus.RECOVERED))
          s1.population s2.population ∧ RNG.Valid s2.rng := by
        unfold phase2 at h2
        cases hs : sweep (phase2Step P) s1.population s1.sirMap s1.rng with
        | none => rw [hs] at h2; cases h2
        | some out =>
          rw [hs] at h2
          simp only [Option.map_some', Option.some.injEq] at h2
          have := sweep_forall2 (V := fun _ r => RNG.Valid r)
            (R := fun a a' => statusStepRel a a' ∧
              (a'.status = SIRStatus.RECOVERED → a.status = SIRStatus.RECOVERED))
            (f := phase2Step P)
            (fun a m r o hvr ho =>
              ⟨⟨(phase2Step_spec ho).1, (phase2Step_norec hvr ho).1⟩,
                (phase2Step_norec hvr ho).2⟩)
            s1.population s1.sirMap s1.rng out p1.2 hs
          rw [← h2]
          exact this
      refine ⟨?_, p2.2⟩
      exact forall2_trans
        (R := fun a a' => a' = a)
        (S := fun a a' => statusStepRel a a' ∧
          (a'.status = SIRStatus.RECOVERED → a.status = SIRStatus.RECOVERED))
        (T := fun a a' => statusStepRel a a' ∧
          (a'.status = SIRStatus.RECOVERED → a.status = SIRStatus.RECOVERED))
        (fun a b c hab hbc => hab ▸ hbc)
        p1.1 p2.1

theorem stepN_zero {P : Params} (hrec : P.recovery_rate = 0) :
    ∀ (n : ℕ) (s s' : SimState), RNG.Valid s.rng → stepN P n s = some s' →
      List.Forall₂ (fun a a' => statusStepRel a a' ∧
        (a'.status = SIRStatus.RECOVERED → a.status = SIRStatus.RECOVERED))
        s.population s'.population ∧ RNG.Valid s'.rng := by
  intro n
  induction n with
  | zero =>
    intro s s' hv h
    unfold stepN at h
    cases h
    exact ⟨List.forall₂_same.2 fun a _ =>
      ⟨⟨Relation.ReflTransGen.refl, fun hr => hr⟩, fun hr => hr⟩, hv⟩
  | succ n ih =>
    intro s s' hv h
    unfold stepN at h
    cases h1 : model_step P s with
    | none => rw [h1] at h; cases h
    | some s1 =>
      rw [h1] at h
      dsimp only at h
      obtain ⟨f1, hv1⟩ := model_step_zero hrec hv h1
      obtain ⟨f2, hv2⟩ := ih s1 s' hv1 h
      refine ⟨?_, hv2⟩
      exact forall2_trans
        (R := fun a a' => statusStepRel a a' ∧
          (a'.status = SIRStatus.RECOVERED → a.status = SIRStatus.RECOVERED))
        (S := fun a a' => statusStepRel a a' ∧
          (a'.status = SIRStatus.RECOVERED → a.status = SIRStatus.RECOVERED))
        (T := fun a a' => statusStepRel a a' ∧
          (a'.status = SIRStatus.RECOVERED → a.status = SIRStatus.RECOVERED))
        (fun a b c hab hbc =>
          ⟨statusStepRel_trans hab.1 hbc.1, fun hr => hab.2 (hbc.2 hr)⟩)
        f1 f2

theorem rtg_to_susceptible_aux {st b : SIRStatus}
    (h : Relation.ReflTransGen StatusEdge st b) (hb : b = SIRStatus.SUSCEPTIBLE) :
    st = SIRStatus.SUSCEPTIBLE := by
  induction h with
  | refl => exact hb
  | tail _ e _ => subst hb; cases e

/-- No edge of the allowed graph enters SUSCEPTIBLE. -/
theorem rtg_to_susceptible {st : SIRStatus}
    (h : Relation.ReflTransGen StatusEdge st SIRStatus.SUSCEPTIBLE) :
    st = SIRStatus.SUSCEPTIBLE := rtg_to_susceptible_aux h rfl

/-- From INFECTED the allowed graph reaches only INFECTED, QUARANTINED
and RECOVERED. -/
theorem rtg_from_infected {b : SIRStatus}
    (h : Relation.ReflTransGen StatusEdge SIRStatus.INFECTED b) :
    b = SIRStatus.INFECTED ∨ b = SIRStatus.QUARANTINED ∨
      b = SIRStatus.RECOVERED := by
  induction h with
  | refl => exact Or.inl rfl
  | tail _ e ih =>
    rcases ih with h1 | h1 | h1 <;> subst h1 <;> cases e
    · exact Or.inr (Or.inl rfl)
    · exact Or.inr (Or.inr rfl)
    · exact Or.inr (Or.inr rfl)

/-- Since no transition enters SUSCEPTIBLE, the susceptible count can
only fall across any pointwise allowed-graph evolution. -/
theorem sus_count_mono :
    ∀ {l l' : List SIRNode},
      List.Forall₂ (fun a a' => Relation.ReflTransGen StatusEdge a.status a'.status) l l' →
      (l'.filter SIRNode.is_susceptible).length ≤
        (l.filter SIRNode.is_susceptible).length := by
  intro l l' h
  induction h with
  | nil => exact le_refl _
  | cons hab hrest ih =>
    rename_i a b l1 l2
    rw [List.filter_cons, List.filter_cons]
    by_cases hb : SIRNode.is_susceptible b = true
    · have hsusb : b.status = SIRStatus.SUSCEPTIBLE := by
        unfold SIRNode.is_susceptible at hb
        simpa using hb
      have hsusa : a.status = SIRStatus.SUSCEPTIBLE :=
        rtg_to_susceptible (hsusb ▸ hab)
      have ha : SIRNode.is_susceptible a = true := by
        unfold SIRNode.is_susceptible
        rw [hsusa]
        rfl
      rw [hb, ha]
      simpa using ih
    · rw [Bool.not_eq_true] at hb
      rw [hb]
      cases hcase : SIRNode.is_susceptible a
      · simpa using ih
      · simp only [cond_true, cond_false, List.length_cons]
        exact le_trans ih (Nat.le_succ _)

theorem initAgent_spec {P : Params} {m : SIRMap} {rng : RNG}
    {out : SIRNode × RNG} (h : initAgent P m rng = some out) :
    out.1.status = SIRStatus.SUSCEPTIBLE ∧ sameRandomness rng out.2 := by
  unfold initAgent at h
  cases h1 : random_idx m.height m.width m.start rng with
  | none => rw [h1] at h; cases h
  | some t1 =>
    obtain ⟨pos, rng1⟩ := t1
    rw [h1] at h
    dsimp only at h
    cases h2 : random_idx m.height m.width m.target rng1 with
    | none => rw [h2] at h; cases h
    | some t2 =>
      obtain ⟨tgt, rng2⟩ := t2
      rw [h2] at h
      dsimp only at h
      cases h3 : SIRNode.pathfindTo P m
          { x := pos.1, y := pos.2, status := SIRStatus.SUSCEPTIBLE,
            urgency := 1, path := [] } tgt with
      | none => rw [h3] at h; cases h
      | some a2 =>
        rw [h3] at h
        cases h
        obtain ⟨hst, _, _, _⟩ := pathfindTo_spec h3
        refine ⟨hst, ?_⟩
        have r1s : sameRandomness rng rng1 := random_idx_rand h1
        have r2s : sameRandomness rng1 rng2 := random_idx_rand h2
        exact sameRandomness_trans (sameRandomness_trans r1s r2s) ⟨rfl, rfl⟩

theorem initAgents_spec {P : Params} {m : SIRMap} :
    ∀ (k : ℕ) (rng : RNG) (out : List SIRNode × RNG),
      initAgents P m k rng = some out →
      out.1.length = k ∧ (∀ a ∈ out.1, a.status = SIRStatus.SUSCEPTIBLE) ∧
      sameRandomness rng out.2 := by
  intro k
  induction k with
  | zero =>
    intro rng out h
    unfold initAgents at h
    cases h
    exact ⟨rfl, fun a ha => absurd ha (List.not_mem_nil a), rfl, rfl⟩
  | succ k ih =>
    intro rng out h
    unfold initAgents at h
    cases h1 : initAgent P m rng with
    | none => rw [h1] at h; cases h
    | some t1 =>
      obtain ⟨a, rng1⟩ := t1
      rw [h1] at h
      dsimp only at h
      cases h2 : initAgents P m k rng1 with
      | none => rw [h2] at h; cases h
      | some t2 =>
        obtain ⟨rest, rng2⟩ := t2
        rw [h2] at h
        dsimp only at h
        cases h
        obtain ⟨hlen, hst, hsame⟩ := ih rng1 (rest, rng2) h2
        obtain ⟨hsta, hsamea⟩ := initAgent_spec h1
        refine ⟨by simp [hlen], ?_, sameRandomness_trans hsamea hsame⟩
        intro b hb
        rcases List.mem_cons.mp hb with hba | hbr
        · rw [hba]; exact hsta
        · exact hst b hbr

/-- What SIRModel.__init__ guarantees: the population has the requested
size, the first carriers agents are INFECTED, the rest SUSCEPTIBLE, the
susceptible count is population - carriers, and the streams are those
passed in. -/
theorem make_spec {P : Params} {height width : ℕ} {img : Node → RGB}
    {population carriers : ℕ} {rng : RNG} {s0 : SimState}
    (h : SIRModel.make P height width img population carriers rng = some s0) :
    s0.population.length = population ∧
    (∀ a ∈ s0.population,
      a.status = SIRStatus.INFECTED ∨ a.status = SIRStatus.SUSCEPTIBLE) ∧
    (∀ i (hi : i < carriers) (hi' : i < s0.population.length),
      (s0.population.get ⟨i, hi'⟩).status = SIRStatus.INFECTED) ∧
    susceptibleCount s0 = population - carriers ∧
    sameRandomness rng s0.rng := by
  unfold SIRModel.make at h
  dsimp only at h
  cases h1 : initAgents P (loadSIRMap height width img) population rng with
  | none => rw [h1] at h; cases h
  | some t1 =>
    obtain ⟨agents, rng1⟩ := t1
    rw [h1] at h
    dsimp only at h
    cases h
    obtain ⟨hlen, hst, hsame⟩ := initAgents_spec population rng (agents, rng1) h1
    have hlentake : ((agents.take carriers).map SIRNode.infect).length =
        min carriers population := by
      simp [hlen]
    constructor
    · show (infectFirst carriers agents).length = population
      unfold infectFirst
      simp [hlen]
      omega
    refine ⟨?_, ?_, ?_, hsame⟩
    · intro a ha
      unfold infectFirst at ha
      rcases List.mem_append.mp ha with h2 | h2
      · obtain ⟨b, _, hb⟩ := List.mem_map.mp h2
        rw [← hb]
        exact Or.inl rfl
      · exact Or.inr (hst a (List.mem_of_mem_drop h2))
    · intro i hi hi'
      show (((agents.take carriers).map SIRNode.infect ++
        agents.drop carriers).get ⟨i, hi'⟩).status = SIRStatus.INFECTED
      have hilt : i < ((agents.take carriers).map SIRNode.infect).length := by
        rw [hlentake]
        unfold infectFirst at hi'
        simp [hlen] at hi'
        omega
      rw [List.get_eq_getElem]
      rw [List.getElem_append_left hilt]
      rw [List.getElem_map]
      rfl
    · show ((infectFirst carriers agents).filter SIRNode.is_susceptible).length =
        population - carriers
      unfold infectFirst
      rw [List.filter_append]
      have hfirst : ((agents.take carriers).map SIRNode.infect).filter
          SIRNode.is_susceptible = [] := by
        apply List.filter_eq_nil_iff.2
        intro a ha
        obtain ⟨b, _, hb⟩ := List.mem_map.mp ha
        rw [← hb]
        unfold SIRNode.is_susceptible SIRNode.infect
        simp
      have hsecond : (agents.drop carriers).filter SIRNode.is_susceptible =
          agents.drop carriers := by
        apply List.filter_eq_self.2
        intro a ha
        unfold SIRNode.is_susceptible
        rw [hst a (List.mem_of_mem_drop ha)]
        rfl
      rw [hfirst, hsecond, List.nil_append, List.length_drop, hlen]

/-- C8 amended: in the 400-agent 8-carrier scenario with recovery rate 0
and in-range random draws, after any number of ticks no agent is
RECOVERED, each original carrier is INFECTED or QUARANTINED (possibly
joined by newly exposed agents, so INFECTED need not be exactly the
carriers), the susceptible count is at most 392, and it never increases
on a further tick. -/
theorem C8_amended_scenario (P : Params) (hrec : P.recovery_rate = 0)
    (height width : ℕ) (img : Node → RGB) (rng : RNG) (hv : RNG.Valid rng)
    (s0 : SimState) (hmake : SIRModel.make P height width img 400 8 rng = some s0)
    (n : ℕ) (s : SimState) (hstep : stepN P n s0 = some s) :
    susceptibleCount s ≤ 392 ∧
    (∀ a ∈ s.population, a.status ≠ SIRStatus.RECOVERED) ∧
    (∀ i (hi : i < 8) (hi' : i < s.population.length),
      (s.population.get ⟨i, hi'⟩).status = SIRStatus.INFECTED ∨
      (s.population.get ⟨i, hi'⟩).status = SIRStatus.QUARANTINED) ∧
    (∀ s2, model_step P s = some s2 →
      susceptibleCount s2 ≤ susceptibleCount s) := by
  obtain ⟨hlen0, halt0, hcar0, hsus0, hsame0⟩ := make_spec hmake
  have hv0 : RNG.Valid s0.rng := hv.of_same hsame0
  obtain ⟨hrel, _⟩ := stepN_zero hrec n s0 s hv0 hstep
  have hlens := List.Forall₂.length_eq hrel
  have hget := List.forall₂_iff_get.mp hrel
  refine ⟨?_, ?_, ?_, ?_⟩
  · have hmono : (s.population.filter SIRNode.is_susceptible).length ≤
        (s0.population.filter SIRNode.is_susceptible).length := by
      apply sus_count_mono
      exact List.Forall₂.imp (fun a b hab => hab.1.1) hrel
    unfold susceptibleCount at hsus0 ⊢
    omega
  · intro a' ha'
    obtain ⟨i, hi⟩ := List.mem_iff_get.1 ha'
    intro hcontra
    have hrec' := (hget.2 i.1 (by omega) i.2).2
    rw [hi] at hrec'
    have := hrec' hcontra
    rcases halt0 (s0.population.get ⟨i.1, by omega⟩)
        (List.get_mem _ _ _) with h1 | h1 <;> rw [this] at h1 <;> cases h1
  · intro i hi hi'
    have hstat0 : (s0.population.get ⟨i, by omega⟩).status = SIRStatus.INFECTED :=
      hcar0 i hi (by omega)
    have hreli := hget.2 i (by omega) hi'
    have hrtg := hreli.1.1
    rw [hstat0] at hrtg
    rcases rtg_from_infected hrtg with h1 | h1 | h1
    · exact Or.inl h1
    · exact Or.inr h1
    · exfalso
      have := hreli.2 h1
      rw [hstat0] at this
      cases this
  · intro s2 hstep2
    apply sus_count_mono
    exact List.Forall₂.imp (fun a b hab => hab.1) (model_step_statuses hstep2)

/-- The 50 by 50 scenario image: a start column, a target column, and
open floor everywhere else — no wall and no quarantine pixels. -/
def img8 : Node → RGB := fun p =>
  if p.2 = 0 then Terrain.START else if p.2 = 1 then Terrain.TARGET else Terrain.OPEN

/-- The heuristic of the placement searches, which all run from (0, 0) to
(0, 1): the target has distance 0 and the only other node ever pushed,
(1, 0), has Euclidean distance sqrt 2; the value 3/2 is order-equivalent
to it in every comparison the search makes. -/
def h8 : Node → ℚ := fun p => if p = (0, 1) then 0 else 3/2

/-- The A-star priority ncost + heuristic of the scenario. -/
def pri8 : ℕ → Node → ℚ := fun n p => Rat.ofInt (Int.ofNat n) + h8 p

/-- The scenario parameters: recovery rate zero, as in the claim. -/
def P8 : Params := { pri := pri8, fuel := 30, recovery_rate := 0, attack_rate := 4/5 }

/-- The scenario streams: every urgency roll is 1/10 (all agents act,
no carrier self-quarantines), every placement draw takes the first mask
cell, and the first exposure roll is 0 (agent 8 catches the ambient
contamination of the carriers sharing its cell) while all later rolls
are 255. -/
def rng8 : RNG :=
  { floats := fun _ => 1/10, fi := 0,
    ints := fun k => if k = 0 then 0 else 255, ii := 0,
    npints := fun _ => 0, ni := 0, npfloats := fun _ => 0, nfi := 0 }

set_option maxRecDepth 1000000 in
set_option maxHeartbeats 8000000 in
/-- C8 counterexample: the streams are in range, the map has no wall and
no quarantine cells, recovery is zero, and yet after one model_step nine
agents have status INFECTED — the eight carriers plus the newly exposed
agent 8 — so the INFECTED set is not exactly the original carriers. -/
theorem C8_counterexample :
    RNG.Valid rng8 ∧ P8.recovery_rate = 0 ∧
    (∀ p, img8 p ≠ Terrain.WALL ∧ img8 p ≠ Terrain.QUARANTINE) ∧
    ((SIRModel.make P8 50 50 img8 400 8 rng8 >>= model_step P8).map
      infectedStatusCount) = some 9 ∧ (9 : ℕ) ≠ 8 := by
  refine ⟨⟨fun n => by norm_num [rng8], fun n => by norm_num [rng8]⟩, rfl, ?_, ?_,
    by omega⟩
  · intro p
    unfold img8
    split_ifs <;> exact ⟨by decide, by decide⟩
  · with_unfolding_all rfl

/-- The agent every placement draw of the scenario produces: at the
first start cell, pathed to the first target cell, urgency 2/5. -/
def agent8 : SIRNode :=
  { x := 0, y := 0, status := SIRStatus.SUSCEPTIBLE, urgency := 2/5,
    path := [(0, 0), (0, 1)] }

/-- The state SIRModel.make produces from the scenario streams. -/
def s8 : SimState :=
  { sirMap := loadSIRMap 50 50 img8,
    population := infectFirst 8 (List.replicate 400 agent8),
    rng := { rng8 with ni := 800, nfi := 400 } }

set_option maxRecDepth 1000000 in
set_option maxHeartbeats 8000000 in
/-- Witness for the amended C8 at the concrete scenario run. -/
theorem C8_witness :
    susceptibleCount s8 ≤ 392 ∧
    (∀ a ∈ s8.population, a.status ≠ SIRStatus.RECOVERED) ∧
    (∀ i (hi : i < 8) (hi' : i < s8.population.length),
      (s8.population.get ⟨i, hi'⟩).status = SIRStatus.INFECTED ∨
      (s8.population.get ⟨i, hi'⟩).status = SIRStatus.QUARANTINED) ∧
    (∀ s2, model_step P8 s8 = some s2 →
      susceptibleCount s2 ≤ susceptibleCount s8) :=
  C8_amended_scenario P8 rfl 50 50 img8 rng8
    ⟨fun n => by norm_num [rng8], fun n => by norm_num [rng8]⟩
    s8 (by with_unfolding_all rfl) 0 s8 rfl

end SpatialSIR
